import Mathlib

/-!
Verification of the CustomMtGEngine rules engine against its specification.

The Python sources are shallowly embedded: strings are modelled as `List Char`
(so that every operation reduces in the kernel), mutable objects live in
explicit arenas keyed by numeric ids, and every stateful operation is a pure
function from state to state.  Each subsystem (tokenizer, AST compiler,
effect-phrase registry, layer manager, combat engine, game state, effect
engine, stack engine) is translated from its source file; the theorems at the
end of the file settle the specification claims.
-/

/-! ### Python-style string primitives over `List Char`

Core `String` functions in Lean are defined by well-founded recursion on
byte positions and do not reduce in the kernel, so the embedding works with
`List Char` throughout.  The helpers below mirror the Python `str` methods
used by the sources (`lower`, `strip`, `split`, `replace`, `in`,
`startswith`).
-/

/-- Str is the character-list representation of a Python string. -/
abbrev Str := List Char

/-- chars converts a Lean string literal to the `List Char` representation. -/
def chars (s : String) : Str := s.data

/-- pyToLowerChar lowercases one ASCII character, as Python `str.lower` does
for the ASCII range (the only range the sources rely on). -/
def pyToLowerChar (c : Char) : Char :=
  if 'A' ≤ c && c ≤ 'Z' then Char.ofNat (c.toNat + 32) else c

/-- pyLower mirrors Python `str.lower`. -/
def pyLower (s : Str) : Str := s.map pyToLowerChar

/-- listIsPrefix tests whether the first list is a prefix of the second. -/
def listIsPrefix : Str → Str → Bool
  | [], _ => true
  | _ :: _, [] => false
  | p :: ps, c :: cs => p == c && listIsPrefix ps cs

/-- pyContains mirrors the Python substring test `pat in s`. -/
def pyContains (s pat : Str) : Bool :=
  match s with
  | [] => pat.isEmpty
  | _ :: rest => listIsPrefix pat s || pyContains rest pat

/-- pyStartsWith mirrors Python `str.startswith`. -/
def pyStartsWith (s pat : Str) : Bool := listIsPrefix pat s

/-- splitOnAux scans the input left to right, cutting at each non-overlapping
occurrence of the separator `sep0 :: sepRest`; `acc` holds the reversed
characters of the current piece.  The `Nat` argument is structural fuel (one
unit per consumed character) so that the definition reduces in the kernel;
the wrapper supplies enough fuel for the default arm to be unreachable. -/
def splitOnAux (sep0 : Char) (sepRest : Str) : Nat → Str → Str → List Str
  | _, [], acc => [acc.reverse]
  | 0, s, acc => [acc.reverse ++ s]
  | fuel + 1, c :: rest, acc =>
    if listIsPrefix (sep0 :: sepRest) (c :: rest) then
      acc.reverse :: splitOnAux sep0 sepRest fuel (rest.drop sepRest.length) []
    else
      splitOnAux sep0 sepRest fuel rest (c :: acc)

/-- pySplitOn mirrors Python `str.split(sep)` for a non-empty separator
(an empty separator raises in Python; it is never used by the sources). -/
def pySplitOn (sep : Str) (s : Str) : List Str :=
  match sep with
  | [] => [s]
  | s0 :: ss => splitOnAux s0 ss s.length s []

/-- pyIntercalate joins pieces with a separator, mirroring `sep.join(...)`. -/
def pyIntercalate (sep : Str) : List Str → Str
  | [] => []
  | [x] => x
  | x :: y :: rest => x ++ sep ++ pyIntercalate sep (y :: rest)

/-- pyReplace mirrors Python `str.replace(old, new)` for non-empty `old`. -/
def pyReplace (s old new : Str) : Str :=
  pyIntercalate new (pySplitOn old s)

/-- pyIsSpace recognises the characters stripped by Python `str.strip()` and
used as separators by `str.split()`. -/
def pyIsSpace (c : Char) : Bool :=
  c == ' ' || c == '\t' || c == '\n' || c == '\r' || c == '\x0b' || c == '\x0c'

/-- pyStrip mirrors Python `str.strip()`. -/
def pyStrip (s : Str) : Str :=
  ((s.dropWhile pyIsSpace).reverse.dropWhile pyIsSpace).reverse

/-- wordsAux splits off maximal runs of non-whitespace characters; the `Nat`
argument is structural fuel (one unit per consumed character). -/
def wordsAux : Nat → Str → List Str
  | _, [] => []
  | 0, s => [s]
  | fuel + 1, c :: rest =>
    if pyIsSpace c then wordsAux fuel rest
    else
      (c :: rest.takeWhile (fun d => !pyIsSpace d)) ::
        wordsAux fuel (rest.dropWhile (fun d => !pyIsSpace d))

/-- pyWords mirrors Python `str.split()` with no argument: maximal runs of
non-whitespace characters. -/
def pyWords (s : Str) : List Str := wordsAux s.length s

/-- pyJoinSpace mirrors `" ".join(words)`. -/
def pyJoinSpace (ws : List Str) : Str := pyIntercalate [' '] ws

/-! ### Tokenizer (src/oracle_parser/Tokenizer.py)

Translation of the `Tokenizer` class: the closed vocabularies, the
punctuation cleaner, the multi-word maximal-munch pass (windows of 5, 4, 3
and 2 words checked against the trigger-word and timing-modifier tables
only) and the single-word classification chain.
-/

/-- TokType mirrors the `TokenType` string constants of the source. -/
inductive TokType where
  | triggerWord | conditionWord | actionWord | costWord | targetingWord
  | zoneReference | timingModifier | numeric | abilityKeyword
  | articleIndefinite | articleDefinite | pronounSubject | pronounPossessive
  | quantifier | verbControl | verbState | verbBe | modalVerb | preposition
  | temporalModifier | nounPlayerRole | resourceTerm | objectTerm
  | effectTerm | unknown
  deriving DecidableEq, Repr

/-- Token mirrors the source `Token` object; `metaValue` models the
`metadata["value"]` entry set for numeric tokens. -/
structure Token where
  type : TokType
  value : Str
  metaValue : Option Str := none
  deriving DecidableEq, Repr

namespace Tokenizer

/-- trigger_words vocabulary from `Tokenizer.__init__`. -/
def trigger_words : List Str :=
  [chars "when", chars "whenever", chars "at the beginning of",
   chars "at end of combat", chars "at the start of your upkeep",
   chars "at the end of your turn", chars "at your end step"]

/-- condition_words vocabulary. -/
def condition_words : List Str :=
  [chars "if", chars "unless", chars "as long as", chars "until",
   chars "during", chars "instead", chars "after", chars "before",
   chars "whilst"]

/-- articles_indefinite vocabulary. -/
def articles_indefinite : List Str := [chars "a", chars "an"]

/-- articles_definite vocabulary. -/
def articles_definite : List Str := [chars "the"]

/-- pronouns_subject vocabulary. -/
def pronouns_subject : List Str := [chars "you", chars "they"]

/-- pronouns_possessive vocabulary. -/
def pronouns_possessive : List Str := [chars "your", chars "their"]

/-- quantifiers vocabulary, including the `+=` extension applied at the end
of `Tokenizer.__init__`. -/
def quantifiers : List Str :=
  [chars "each", chars "any", chars "one", chars "all", chars "up to",
   chars "two", chars "three", chars "four", chars "five", chars "six",
   chars "seven", chars "eight", chars "nine", chars "ten", chars "x",
   chars "any number", chars "at least", chars "no more than"]

/-- verbs_control vocabulary. -/
def verbs_control : List Str := [chars "control", chars "controls"]

/-- verbs_state vocabulary. -/
def verbs_state : List Str := [chars "has", chars "have"]

/-- verbs_be vocabulary. -/
def verbs_be : List Str := [chars "is", chars "are", chars "was", chars "were"]

/-- modal_verbs vocabulary. -/
def modal_verbs : List Str :=
  [chars "choose", chars "may", chars "must", chars "can", chars "shall",
   chars "could"]

/-- prepositions vocabulary. -/
def prepositions : List Str := [chars "of", chars "with", chars "without"]

/-- temporal_modifiers vocabulary. -/
def temporal_modifiers : List Str :=
  [chars "during", chars "before", chars "after"]

/-- noun_player_roles vocabulary. -/
def noun_player_roles : List Str := [chars "opponent", chars "player"]

/-- resource_terms vocabulary. -/
def resource_terms : List Str :=
  [chars "life", chars "mana", chars "damage", chars "counter", chars "token"]

/-- object_terms vocabulary. -/
def object_terms : List Str :=
  [chars "card", chars "spell", chars "permanent", chars "player",
   chars "ability", chars "emblem"]

/-- effect_terms vocabulary. -/
def effect_terms : List Str :=
  [chars "gain", chars "lose", chars "prevent", chars "add", chars "remove",
   chars "create", chars "destroy"]

/-- action_words vocabulary. -/
def action_words : List Str :=
  [chars "draw", chars "discard", chars "destroy", chars "exile", chars "tap",
   chars "untap", chars "create", chars "gain", chars "lose", chars "search",
   chars "reveal", chars "return", chars "counter", chars "sacrifice",
   chars "sacrifices", chars "pay", chars "cast", chars "attack",
   chars "block", chars "equip", chars "enchant", chars "flip", chars "mill",
   chars "venture", chars "explore", chars "investigate", chars "amass",
   chars "fight", chars "adapt", chars "proliferate", chars "scry",
   chars "connive"]

/-- targeting_words vocabulary. -/
def targeting_words : List Str :=
  [chars "target", chars "choose", chars "each", chars "any", chars "up to",
   chars "each opponent", chars "each player", chars "each creature",
   chars "opponent", chars "player", chars "planeswalker", chars "artifact",
   chars "enchantment", chars "creature", chars "land", chars "spell",
   chars "permanent", chars "nonland", chars "nontoken", chars "noncreature",
   chars "nonartifact"]

/-- zone_references vocabulary. -/
def zone_references : List Str :=
  [chars "battlefield", chars "graveyard", chars "exile", chars "library",
   chars "hand", chars "stack", chars "command zone"]

/-- timing_modifiers vocabulary. -/
def timing_modifiers : List Str :=
  [chars "only as a sorcery", chars "instant speed", chars "during your upkeep",
   chars "during combat", chars "end of turn", chars "before damage",
   chars "after blockers are declared", chars "at any time"]

/-- ability_keywords vocabulary. -/
def ability_keywords : List Str :=
  [chars "flying", chars "first strike", chars "double strike",
   chars "deathtouch", chars "lifelink", chars "vigilance", chars "trample",
   chars "hexproof", chars "menace", chars "ward", chars "indestructible",
   chars "protection", chars "haste", chars "reach"]

/-- pyIsDigit mirrors Python `str.isdigit` for the ASCII digits. -/
def pyIsDigit (s : Str) : Bool := !s.isEmpty && s.all (·.isDigit)

/-- classifyWord is the single-word `elif` chain of `Tokenizer.tokenize`,
in source order. -/
def classifyWord (w : Str) : Token :=
  if trigger_words.contains w then ⟨.triggerWord, w, none⟩
  else if condition_words.contains w then ⟨.conditionWord, w, none⟩
  else if action_words.contains w then ⟨.actionWord, w, none⟩
  else if targeting_words.contains w then ⟨.targetingWord, w, none⟩
  else if zone_references.contains w then ⟨.zoneReference, w, none⟩
  else if timing_modifiers.contains w then ⟨.timingModifier, w, none⟩
  else if ability_keywords.contains w then ⟨.abilityKeyword, w, none⟩
  else if articles_indefinite.contains w then ⟨.articleIndefinite, w, none⟩
  else if articles_definite.contains w then ⟨.articleDefinite, w, none⟩
  else if pronouns_subject.contains w then ⟨.pronounSubject, w, none⟩
  else if pronouns_possessive.contains w then ⟨.pronounPossessive, w, none⟩
  else if quantifiers.contains w then ⟨.quantifier, w, none⟩
  else if verbs_control.contains w then ⟨.verbControl, w, none⟩
  else if verbs_state.contains w then ⟨.verbState, w, none⟩
  else if verbs_be.contains w then ⟨.verbBe, w, none⟩
  else if modal_verbs.contains w then ⟨.modalVerb, w, none⟩
  else if prepositions.contains w then ⟨.preposition, w, none⟩
  else if temporal_modifiers.contains w then ⟨.temporalModifier, w, none⟩
  else if noun_player_roles.contains w then ⟨.nounPlayerRole, w, none⟩
  else if resource_terms.contains w then ⟨.resourceTerm, w, none⟩
  else if object_terms.contains w then ⟨.objectTerm, w, none⟩
  else if effect_terms.contains w then ⟨.effectTerm, w, none⟩
  else if pyIsDigit w || quantifiers.contains w then ⟨.numeric, w, some w⟩
  else ⟨.unknown, w, none⟩

/-- phraseHit tests a joined window against the two tables consulted by the
multi-word pass. -/
def phraseHit (p : Str) : Bool :=
  trigger_words.contains p || timing_modifiers.contains p

/-- tokenizeLoop is the `while i < len(words)` loop of `tokenize`; the `Nat`
argument is structural fuel (the loop consumes at least one word per
iteration, so `words.length` fuel always suffices). -/
def tokenizeLoop : Nat → List Str → List Token
  | _, [] => []
  | 0, _ => []
  | fuel + 1, w :: rest =>
    let ws := w :: rest
    let phrase4 := pyJoinSpace (ws.take 5)
    let phrase3 := pyJoinSpace (ws.take 4)
    let phrase2 := pyJoinSpace (ws.take 3)
    let phrase1 := pyJoinSpace (ws.take 2)
    if phraseHit phrase4 then
      ⟨.triggerWord, phrase4, none⟩ :: tokenizeLoop fuel (ws.drop 5)
    else if phraseHit phrase3 then
      ⟨.triggerWord, phrase3, none⟩ :: tokenizeLoop fuel (ws.drop 4)
    else if phraseHit phrase2 then
      ⟨.triggerWord, phrase2, none⟩ :: tokenizeLoop fuel (ws.drop 3)
    else if phraseHit phrase1 then
      ⟨.triggerWord, phrase1, none⟩ :: tokenizeLoop fuel (ws.drop 2)
    else
      classifyWord w :: tokenizeLoop fuel rest

/-- clean_punctuation from the source: strips the six punctuation marks. -/
def clean_punctuation (s : Str) : Str :=
  pyReplace (pyReplace (pyReplace (pyReplace (pyReplace (pyReplace s
    (chars ",") []) (chars ".") []) (chars ";") []) (chars ":") [])
    (chars "!") []) (chars "?") []

/-- tokenize mirrors `Tokenizer.tokenize`: lowercase, strip punctuation,
split into words, then run the munch/classify loop. -/
def tokenize (text : Str) : List Token :=
  let words := pyWords (clean_punctuation (pyLower text))
  tokenizeLoop words.length words

end Tokenizer

/-! ### Oracle AST compiler (src/oracle_parser/oracle_ast_compiler_clean.py)

Translation of `OracleASTCompiler`.  The Python `compile` method is
recursive with no termination guard; it is embedded with a structural fuel
parameter, `none` meaning that the given recursion depth was exhausted.  A
result of `none` for every fuel value is the embedding of non-termination.
-/

/-- Ast mirrors the dict-based AST nodes produced by `OracleASTCompiler`. -/
inductive Ast where
  | modal (options : List Ast)
  | conditional (condition : Str) (thenB : List Ast) (elseB : Option (List Ast))
  | repeatNode (content : Str) (children : List Ast)
  | effect (content : Str)

namespace OracleASTCompiler

/-- split_clauses mirrors `_split_clauses`: em-dash normalisation followed by
the regex split on the three separators.  The separators cannot overlap each
other, so splitting on them in sequence equals the alternation split of the
source regex. -/
def split_clauses (text : Str) : List Str :=
  let t := pyReplace (pyReplace text (chars "—") (chars "-"))
    (chars "â€”") (chars "-")
  ((pySplitOn (chars ". ") t).flatMap (pySplitOn (chars "; "))).flatMap
    (pySplitOn (chars "\n"))

/-- wrap_effect mirrors `_wrap_effect`. -/
def wrap_effect (text : Str) : Ast := Ast.effect text

/-- parse_modal_options mirrors `_parse_modal_options`: strip the modal
header, split on semicolons, wrap each non-empty option. -/
def parse_modal_options (text : Str) : List Ast :=
  let t := pyStrip (pyReplace (pyReplace text (chars "choose one -") [])
    (chars "choose one —") [])
  ((pySplitOn (chars ";") t).filter (fun o => !o.isEmpty)).map
    (fun o => wrap_effect (pyStrip o))

/-- clean_repeat_text mirrors `_clean_repeat_text`: the text is cut before
"repeat this process" when that marker is present, and returned unchanged
otherwise. -/
def clean_repeat_text (text : Str) : Str :=
  if pyContains text (chars "repeat this process") then
    pyStrip ((pySplitOn (chars "repeat this process") text).headD [])
  else text

/-- compileSegWith is the per-segment classification of `compile`, with the
recursive compile call abstracted as `rec` so that the fueled fixpoint below
stays structurally recursive. -/
def compileSegWith (rec : Str → Option (List Ast)) (segment : Str) :
    Option (List Ast) :=
  let normalized := pyStrip (pyLower segment)
  if pyStartsWith normalized (chars "choose one —") ||
      pyStartsWith normalized (chars "choose one -") then
    some [Ast.modal (parse_modal_options normalized)]
  else if pyContains normalized (chars "if") &&
      pyContains normalized (chars "then") then
    let pieces := pySplitOn (chars "then") normalized
    let conditionPart := pieces.headD []
    let consequencePart := pyIntercalate (chars "then") pieces.tail
    let condition := pyStrip (pyReplace conditionPart (chars "if") [])
    if pyContains consequencePart (chars "otherwise") then
      let p2 := pySplitOn (chars "otherwise") consequencePart
      let thenPart := p2.headD []
      let elsePart := pyIntercalate (chars "otherwise") p2.tail
      do
        let t ← rec (pyStrip thenPart)
        let e ← rec (pyStrip elsePart)
        pure [Ast.conditional condition t (some e)]
    else do
      let t ← rec (pyStrip consequencePart)
      pure [Ast.conditional condition t none]
  else if pyContains normalized (chars "repeat this process") ||
      pyContains normalized (chars "for each") then do
    let c ← rec (clean_repeat_text normalized)
    pure [Ast.repeatNode normalized c]
  else if pyContains normalized (chars " and ") &&
      !pyStartsWith normalized (chars "search your library") then
    some ((pySplitOn (chars " and ") normalized).map
      (fun part => wrap_effect (pyStrip part)))
  else
    some [wrap_effect normalized]

/-- compileSegsWith runs the per-segment step over all segments of one
`compile` invocation, concatenating the produced nodes. -/
def compileSegsWith (rec : Str → Option (List Ast)) :
    List Str → Option (List Ast)
  | [] => some []
  | s :: rest => do
    let a ← compileSegWith rec s
    let b ← compileSegsWith rec rest
    pure (a ++ b)

/-- compileFuel is `OracleASTCompiler.compile` with explicit recursion
depth: depth exhausted yields `none`. -/
def compileFuel : Nat → Str → Option (List Ast)
  | 0, _ => none
  | fuel + 1, text => compileSegsWith (compileFuel fuel) (split_clauses text)

end OracleASTCompiler

/-! ### Effect phrase registry and leaf parser
(src/oracle_parser/EffectPhraseRegistry.py and src/EffectParser.py)

Python builder functions return heterogeneous dict/list/None values; they
are embedded as values of the `PyVal` type.  Dict entries are listed in the
Python insertion order. -/

/-- PyVal models the JSON-like Python values produced by the effect phrase
builders. -/
inductive PyVal where
  | pynone
  | str (s : Str)
  | int (n : Int)
  | list (xs : List PyVal)
  | dict (entries : List (String × PyVal))

namespace EffectPhraseRegistry

/-- COLORS constant from the registry module. -/
def COLORS : List Str :=
  [chars "white", chars "blue", chars "black", chars "red", chars "green"]

/-- KEYWORD_ABILITIES constant from the registry module. -/
def KEYWORD_ABILITIES : List Str :=
  [chars "flying", chars "vigilance", chars "haste", chars "deathtouch",
   chars "trample", chars "first strike", chars "double strike",
   chars "lifelink", chars "hexproof", chars "indestructible", chars "menace",
   chars "ward", chars "reach", chars "protection"]

/-- findPt mirrors the regex search for a digit/digit power-toughness pair:
the first position whose three characters are digit, slash, digit. -/
def findPt : Str → Option (Int × Int)
  | a :: b :: c :: rest =>
    if a.isDigit && b == '/' && c.isDigit then
      some ((a.toNat - 48 : Int), (c.toNat - 48 : Int))
    else findPt (b :: c :: rest)
  | _ => none

/-- parse_create_token_phrase builder from the registry module. -/
def parse_create_token_phrase (text : Str) : PyVal :=
  let pt := findPt text
  let offspring := pyContains text (chars "offspring")
  let power : PyVal := if offspring then .int 1 else
    match pt with | some (p, _) => .int p | none => .pynone
  let toughness : PyVal := if offspring then .int 1 else
    match pt with | some (_, t) => .int t | none => .pynone
  let copyOf : PyVal := if offspring then .str (chars "source") else .pynone
  .dict
    [("action", .str (chars "create_token")),
     ("effect_family", .str (chars "token_creation")),
     ("token", .dict
       [("power", power),
        ("toughness", toughness),
        ("colors", .list ((COLORS.filter
          (fun c => pyContains text c)).map PyVal.str)),
        ("types", .list []),
        ("abilities", .list ((KEYWORD_ABILITIES.filter
          (fun a => pyContains text a)).map PyVal.str)),
        ("copy_of", copyOf)])]

/-- parse_power_toughness_modifier builder from the registry module. -/
def parse_power_toughness_modifier (text : Str) : PyVal :=
  if pyContains text (chars "+1/+1") then
    .dict [("type", .str (chars "static_effect")),
           ("layer", .str (chars "7c")),
           ("power_boost", .int 1), ("toughness_boost", .int 1)]
  else if pyContains text (chars "-1/-1") then
    .dict [("type", .str (chars "static_effect")),
           ("layer", .str (chars "7c")),
           ("power_boost", .int (-1)), ("toughness_boost", .int (-1))]
  else .pynone

/-- parse_static_combat_restriction builder from the registry module. -/
def parse_static_combat_restriction (text : Str) : PyVal :=
  if pyContains text (chars "can\x27t attack") then
    .dict [("type", .str (chars "static_effect")),
           ("layer", .str (chars "6")),
           ("restriction", .str (chars "cant_attack"))]
  else if pyContains text (chars "must attack each combat if able") then
    .dict [("type", .str (chars "static_effect")),
           ("layer", .str (chars "6")),
           ("restriction", .str (chars "must_attack"))]
  else .pynone

/-- parse_keyword_ability builder from the registry module. -/
def parse_keyword_ability (text0 : Str) : PyVal :=
  let text := pyLower text0
  if [chars "gains", chars "target", chars "equipped",
      chars "until end of turn"].any (fun w => pyContains text w) then
    .dict [("action", .str (chars "unknown_effect"))]
  else
    let detected := (pySplitOn (chars ",") text).flatMap (fun part0 =>
      let part := pyStrip part0
      (KEYWORD_ABILITIES.filter (fun k => pyContains part k)).map
        (fun k => PyVal.dict
          [("type", .str (chars "static_ability")),
           ("ability", .str k)]))
    if detected.isEmpty then .dict [("action", .str (chars "unknown_effect"))]
    else .list detected

/-- parse_solve_case builder from the registry module. -/
def parse_solve_case (_text : Str) : PyVal :=
  .dict [("action", .str (chars "set_state_flag")),
         ("effect_family", .str (chars "state_modification")),
         ("flag", .str (chars "solved"))]

/-- simpleAction is the shape of the inline lambda builders that return a
single action dict. -/
def simpleAction (name : String) (_text : Str) : PyVal :=
  .dict [("action", .str (chars name))]

/-- STANDARD_EFFECTS registry in source (insertion) order: each entry is a
key, its trigger phrase list and its builder. -/
def STANDARD_EFFECTS : List (String × List Str × (Str → PyVal)) :=
  [("draw_card",
    ([chars "draw a card", chars "draw two cards", chars "draw three cards"],
     simpleAction "draw_card")),
   ("gain_life",
    ([chars "gain life", chars "you gain 3 life", chars "you gain 1 life"],
     simpleAction "gain_life")),
   ("lose_life",
    ([chars "lose life", chars "you lose 2 life", chars "you lose 1 life"],
     simpleAction "lose_life")),
   ("deal_damage",
    ([chars "deal damage", chars "deals 2 damage"],
     simpleAction "deal_damage")),
   ("destroy_target",
    ([chars "destroy target", chars "destroy target tapped creature",
      chars "destroy target artifact", chars "destroy target planeswalker"],
     simpleAction "destroy_target")),
   ("exile_target",
    ([chars "exile target", chars "exile up to one target"],
     simpleAction "exile_target")),
   ("tap_target",
    ([chars "tap target creature", chars "tap target permanent"],
     simpleAction "tap_target")),
   ("untap_target",
    ([chars "untap target creature", chars "untap target permanent"],
     simpleAction "untap_target")),
   ("return_to_hand",
    ([chars "return target creature to its owner\x27s hand",
      chars "return target permanent to its owner\x27s hand"],
     simpleAction "return_to_hand")),
   ("counter_spell",
    ([chars "counter target spell", chars "counter target activated ability",
      chars "counter target triggered ability"],
     simpleAction "counter_spell")),
   ("create_token",
    ([chars "create a token", chars "create a 1/1 white vampire",
      chars "create a 1/1 white soldier creature token",
      chars "create a 3/3 green beast creature token",
      chars "create a clue token"],
     parse_create_token_phrase)),
   ("offspring",
    ([chars "offspring", chars "create an offspring token"],
     parse_create_token_phrase)),
   ("solve_case",
    ([chars "solve the case", chars "solved"], parse_solve_case)),
   ("buff_all_creatures",
    ([chars "creatures you control get +1/+1",
      chars "other creatures you control get +1/+1"],
     parse_power_toughness_modifier)),
   ("combat_restrictions",
    ([chars "can\x27t attack", chars "must attack each combat if able"],
     parse_static_combat_restriction)),
   ("grant_keyword", (KEYWORD_ABILITIES, parse_keyword_ability))]

/-- unparsedEffectDict is the diagnostic fallback value of
`EffectParser._parse_effect`. -/
def unparsedEffectDict (text : Str) : PyVal :=
  .dict [("action", .str (chars "unparsed_effect")), ("raw_text", .str text)]

/-- parseEffectAux walks the registry in order; the first entry one of whose
phrases occurs in the text wins. -/
def parseEffectAux : List (String × List Str × (Str → PyVal)) → Str → PyVal
  | [], text => unparsedEffectDict text
  | (_, entry) :: rest, text =>
    if entry.1.any (fun p => pyContains text p) then entry.2 text
    else parseEffectAux rest text

/-- parse_effect mirrors `EffectParser._parse_effect`. -/
def parse_effect (text : Str) : PyVal := parseEffectAux STANDARD_EFFECTS text

end EffectPhraseRegistry

/-! ### Layer manager and static-effect descriptor
(src/oracle_parser/OracleRulesLayer.py `LayerManager` and
src/StaticEffectDescriptor.py)

A Python layer tag is an `int`, a `str` or `None`; permanents carry their
power/toughness as an optional pair (the source only touches them when both
attributes exist). -/

/-- PyLayer models the dynamically typed `layer` attribute. -/
inductive PyLayer where
  | int (n : Int)
  | str (s : Str)
  | pynone
  deriving DecidableEq, Repr

/-- Permanent models the battlefield objects visited by
`StaticEffectDescriptor.apply`. -/
structure Permanent where
  types : List Str
  controller : Nat
  abilities : List Str
  pt : Option (Int × Int)
  life_gain_prevention : Bool := false
  must_attack : Bool := false
  deriving DecidableEq, Repr

/-- StaticEffectDescriptor mirrors the source class; `source_controller` is
the `controller` of the `source` object read by `matches_target`. -/
structure StaticEffectDescriptor where
  target_class : Str
  granted_abilities : List Str := []
  power_boost : Int := 0
  toughness_boost : Int := 0
  restrictions : List Str := []
  rules_overwrites : List Str := []
  keywords_removed : List Str := []
  layer : PyLayer := .pynone
  duration : Str := chars "permanent"
  source_controller : Nat := 0
  timestamp : Nat := 0
  dependency_targets : List Str := []
  deriving DecidableEq, Repr

/-- LayerGameState is the slice of game state visited by `apply`: the
battlefield list. -/
structure LayerGameState where
  battlefield : List Permanent
  deriving DecidableEq, Repr

namespace StaticEffects

/-- matches_target mirrors `StaticEffectDescriptor.matches_target`. -/
def matches_target (d : StaticEffectDescriptor) (p : Permanent) : Bool :=
  if d.target_class == chars "permanent" then true
  else if d.target_class == chars "creature" &&
      p.types.contains (chars "Creature") then true
  else if d.target_class == chars "creatures you control" &&
      p.types.contains (chars "Creature") &&
      p.controller == d.source_controller then true
  else false

/-- apply_to_permanent mirrors `StaticEffectDescriptor.apply_to_permanent`:
grant absent abilities, add the power/toughness boosts when the permanent
has both attributes, and set the rules-overwrite/restriction flags. -/
def apply_to_permanent (d : StaticEffectDescriptor) (p : Permanent) :
    Permanent :=
  let abilities := d.granted_abilities.foldl
    (fun ab a => if ab.contains a then ab else ab ++ [a]) p.abilities
  let pt := match p.pt with
    | some (pow, tou) => some (pow + d.power_boost, tou + d.toughness_boost)
    | none => none
  { p with
    abilities := abilities
    pt := pt
    life_gain_prevention :=
      if d.rules_overwrites.contains (chars "can\x27t gain life") then true
      else p.life_gain_prevention
    must_attack :=
      if d.restrictions.contains (chars "must attack") then true
      else p.must_attack }

/-- descApply mirrors `StaticEffectDescriptor.apply`: visit every
battlefield permanent and rewrite the matching ones. -/
def descApply (d : StaticEffectDescriptor) (gs : LayerGameState) :
    LayerGameState :=
  ⟨gs.battlefield.map (fun p =>
    if matches_target d p then apply_to_permanent d p else p)⟩

/-- LayerManager mirrors the buckets of the source class: integer layers 1-7
and the four sublayers of layer 7. -/
structure LayerManager where
  layer1 : List StaticEffectDescriptor := []
  layer2 : List StaticEffectDescriptor := []
  layer3 : List StaticEffectDescriptor := []
  layer4 : List StaticEffectDescriptor := []
  layer5 : List StaticEffectDescriptor := []
  layer6 : List StaticEffectDescriptor := []
  layer7 : List StaticEffectDescriptor := []
  sub7a : List StaticEffectDescriptor := []
  sub7b : List StaticEffectDescriptor := []
  sub7c : List StaticEffectDescriptor := []
  sub7d : List StaticEffectDescriptor := []
  deriving DecidableEq, Repr

/-- register_effect mirrors `LayerManager.register_effect`: integers 1-6 go
to their layer bucket, the four sublayer strings to their sublayer bucket,
the integer 7 to the 7d bucket, and anything else raises. -/
def register_effect (m : LayerManager) (e : StaticEffectDescriptor) :
    Except Str LayerManager :=
  match e.layer with
  | .pynone => .error (chars "Effect missing layer information!")
  | .int n =>
    if n == 1 then .ok { m with layer1 := m.layer1 ++ [e] }
    else if n == 2 then .ok { m with layer2 := m.layer2 ++ [e] }
    else if n == 3 then .ok { m with layer3 := m.layer3 ++ [e] }
    else if n == 4 then .ok { m with layer4 := m.layer4 ++ [e] }
    else if n == 5 then .ok { m with layer5 := m.layer5 ++ [e] }
    else if n == 6 then .ok { m with layer6 := m.layer6 ++ [e] }
    else if n == 7 then .ok { m with sub7d := m.sub7d ++ [e] }
    else .error (chars "Invalid layer designation for effect")
  | .str s =>
    if s == chars "7a" then .ok { m with sub7a := m.sub7a ++ [e] }
    else if s == chars "7b" then .ok { m with sub7b := m.sub7b ++ [e] }
    else if s == chars "7c" then .ok { m with sub7c := m.sub7c ++ [e] }
    else if s == chars "7d" then .ok { m with sub7d := m.sub7d ++ [e] }
    else .error (chars "Invalid layer designation for effect")

/-- sortTs is the `sorted(..., key=lambda e: e.timestamp)` of the source; a
stable sort, like Python Timsort. -/
def sortTs (l : List StaticEffectDescriptor) : List StaticEffectDescriptor :=
  List.insertionSort (fun a b => a.timestamp ≤ b.timestamp) l

/-- schedule is the exact order in which `apply_layers` visits descriptors:
integer layers 1 through 6 (bucket 7 of the dict is never visited:
`range(1, 7)`), then sublayers 7a, 7b, 7c, 7d, each bucket sorted by
timestamp ascending. -/
def schedule (m : LayerManager) : List StaticEffectDescriptor :=
  sortTs m.layer1 ++ sortTs m.layer2 ++ sortTs m.layer3 ++ sortTs m.layer4 ++
  sortTs m.layer5 ++ sortTs m.layer6 ++
  sortTs m.sub7a ++ sortTs m.sub7b ++ sortTs m.sub7c ++ sortTs m.sub7d

/-- apply_layers mirrors `LayerManager.apply_layers`: apply every scheduled
descriptor to the game state in schedule order. -/
def apply_layers (m : LayerManager) (gs : LayerGameState) : LayerGameState :=
  (schedule m).foldl (fun g e => descApply e g) gs

/-- managerSize counts the registered descriptors over all buckets. -/
def managerSize (m : LayerManager) : Nat :=
  m.layer1.length + m.layer2.length + m.layer3.length + m.layer4.length +
  m.layer5.length + m.layer6.length + m.layer7.length +
  m.sub7a.length + m.sub7b.length + m.sub7c.length + m.sub7d.length

/-- legalLayerAmended is the acceptance set actually implemented by
`register_effect`: the nine documented designations plus the integer 7. -/
def legalLayerAmended : PyLayer → Bool
  | .int n => (1 ≤ n && n ≤ 6) || n == 7
  | .str s => s == chars "7a" || s == chars "7b" || s == chars "7c" ||
      s == chars "7d"
  | .pynone => false

end StaticEffects

/-! ### Combat engine (src/effect_execution/CombatEngine.py)

Creatures and players live in arenas keyed by numeric ids (the embedding of
Python object identity); the engine dicts `attackers`/`blockers` and the
mirror `game_state.combat` store ids.  Every f-string log message of the
source is reproduced. -/

/-- intToStr renders an integer the way Python `str(...)` does inside the
f-string log messages. -/
def intToStr (i : Int) : Str :=
  if i < 0 then '-' :: Nat.toDigits 10 i.natAbs else Nat.toDigits 10 i.natAbs

/-- Creature models a battlefield card as the combat engine reads it:
attributes read through `getattr(..., default)` in the source are plain
fields with that default, `can_attack` keeps its optional (hasattr-guarded)
nature. -/
structure Creature where
  id : Nat
  name : Str
  zone : Str := chars "battlefield"
  controller : Nat
  type_line : Str := chars "Creature"
  tapped : Bool := false
  summoning_sick : Bool := false
  haste : Bool := false
  can_attack : Option Bool := none
  power : Int := 0
  toughness : Int := 0
  damage : Int := 0
  deathtouch : Bool := false
  trample : Bool := false
  flying : Bool := false
  reach : Bool := false
  shadow : Bool := false
  status : Str := []
  deriving DecidableEq, Repr

/-- CPlayer models a player as combat sees it. -/
structure CPlayer where
  id : Nat
  name : Str
  life : Int := 20
  deriving DecidableEq, Repr

/-- Defender is the second half of a declared attacker pair: a player or a
permanent (referenced by arena id). -/
inductive Defender where
  | player (pid : Nat)
  | perm (cid : Nat)
  deriving DecidableEq, Repr

/-- CombatDicts models the `game_state.combat` mirror dictionary. -/
structure CombatDicts where
  attackers : List (Nat × Defender) := []
  blockers : List (Nat × List Nat) := []
  deriving DecidableEq, Repr

/-- CombatGameState is the game-state slice the combat engine touches. -/
structure CombatGameState where
  players : List CPlayer
  creatures : List Creature
  phase : Str := chars "Declare Attackers"
  combat : Option CombatDicts := none
  deriving DecidableEq, Repr

/-- CombatEngineState holds the engine's own `attackers` and `blockers`
dictionaries (insertion-ordered, as Python dicts are). -/
structure CombatEngineState where
  attackers : List (Nat × Defender) := []
  blockers : List (Nat × List Nat) := []
  deriving DecidableEq, Repr

namespace Combat

/-- findC looks a creature up by id (the embedding of following an object
reference). -/
def findC (cs : List Creature) (cid : Nat) : Option Creature :=
  cs.find? (fun c => c.id == cid)

/-- updC rewrites the creature with the given id. -/
def updC (cs : List Creature) (cid : Nat) (f : Creature → Creature) :
    List Creature :=
  cs.map (fun c => if c.id == cid then f c else c)

/-- findP looks a player up by id. -/
def findP (ps : List CPlayer) (pid : Nat) : Option CPlayer :=
  ps.find? (fun p => p.id == pid)

/-- updP rewrites the player with the given id. -/
def updP (ps : List CPlayer) (pid : Nat) (f : CPlayer → CPlayer) :
    List CPlayer :=
  ps.map (fun p => if p.id == pid then f p else p)

/-- assocSet models Python dict assignment `d[k] = v`: update the value in
place if the key exists, else append the new key at the end. -/
def assocSet {β : Type} (l : List (Nat × β)) (k : Nat) (v : β) :
    List (Nat × β) :=
  if l.any (fun kv => kv.1 == k) then
    l.map (fun kv => if kv.1 == k then (k, v) else kv)
  else l ++ [(k, v)]

/-- defenderName renders `getattr(defender, "name", str(defender))`. -/
def defenderName (gs : CombatGameState) : Defender → Str
  | .player pid => match findP gs.players pid with
    | some p => p.name
    | none => chars "<defender>"
  | .perm cid => match findC gs.creatures cid with
    | some c => c.name
    | none => chars "<defender>"

end Combat

namespace Combat

/-- playerName looks up the attacking player's `name` attribute. -/
def playerName (gs : CombatGameState) (pid : Nat) : Str :=
  match findP gs.players pid with
  | some p => p.name
  | none => chars "<player>"

/-- declareStep is the body of the `for creature, defender in
declared_attackers` loop of `declare_attackers`: the per-entry validation
chain, each failure producing exactly one message and leaving state alone,
success recording the attacker in the engine dict and the
`game_state.combat` mirror, tapping the creature and marking it attacking. -/
def declareStep (attackingPid : Nat)
    (acc : CombatGameState × CombatEngineState × List Str)
    (pair : Nat × Defender) :
    CombatGameState × CombatEngineState × List Str :=
  let (gs, eng, log) := acc
  match findC gs.creatures pair.1 with
  | none => (gs, eng, log)
  | some c =>
    if c.zone != chars "battlefield" then
      (gs, eng, log ++ [c.name ++ chars " is not on the battlefield."])
    else if c.controller != attackingPid then
      (gs, eng, log ++ [c.name ++ chars " is not controlled by " ++
        playerName gs attackingPid ++ chars "."])
    else if !(pyContains (pyLower c.type_line) (chars "creature")) then
      (gs, eng, log ++ [c.name ++ chars " is not a creature."])
    else if c.tapped then
      (gs, eng, log ++ [c.name ++ chars " is tapped and can\x27t attack."])
    else if c.summoning_sick && !c.haste then
      (gs, eng, log ++ [c.name ++ chars " has summoning sickness."])
    else if c.can_attack == some false then
      (gs, eng, log ++ [c.name ++ chars " can\x27t attack."])
    else
      let legal := match pair.2 with
        | .player pid =>
          gs.players.any (fun p => p.id == pid) && pid != attackingPid
        | .perm dcid => match findC gs.creatures dcid with
          | some dc => gs.players.any (fun p => p.id == dc.controller)
          | none => false
      if !legal then
        (gs, eng, log ++ [defenderName gs pair.2 ++
          chars " is not a legal defender."])
      else
        let eng' := { eng with
          attackers := assocSet eng.attackers pair.1 pair.2 }
        let combat0 := gs.combat.getD {}
        let gs' := { gs with
          combat := some { combat0 with
            attackers := assocSet combat0.attackers pair.1 pair.2 }
          creatures := updC gs.creatures pair.1
            (fun cc => { cc with tapped := true
                                 status := chars "attacking" }) }
        (gs', eng', log ++ [c.name ++ chars " attacks " ++
          defenderName gs pair.2 ++ chars "."])

/-- declare_attackers mirrors `CombatEngine.declare_attackers`: phase guard,
ensure the `combat` dict exists, then the independent per-entry loop. -/
def declare_attackers (gs0 : CombatGameState) (eng : CombatEngineState)
    (attackingPid : Nat) (declared : List (Nat × Defender)) :
    CombatGameState × CombatEngineState × List Str :=
  if gs0.phase != chars "Declare Attackers" then
    (gs0, eng,
     [chars "Attackers may only be declared during the Declare Attackers step."])
  else
    let gs := match gs0.combat with
      | none => { gs0 with combat := some {} }
      | some _ => gs0
    declared.foldl (declareStep attackingPid) (gs, eng, [])

/-- distributeLoop is the first inner loop of `assign_damage`: spread the
attacker's remaining power over the blockers in order, 1 per blocker under
deathtouch, else capped by remaining toughness, breaking once remaining
power is no longer positive. -/
def distributeLoop (aid : Nat) :
    List Creature → Int → List Nat → List Creature × Int × List Str
  | cs, remaining, [] => (cs, remaining, [])
  | cs, remaining, b :: rest =>
    match findC cs b, findC cs aid with
    | some bc, some ac =>
      let dmg := if ac.deathtouch then 1
        else min remaining (bc.toughness - bc.damage)
      let cs' := updC cs b (fun c => { c with damage := c.damage + dmg })
      let rem' := remaining - dmg
      let msg := ac.name ++ chars " deals " ++ intToStr dmg ++
        chars " damage to " ++ bc.name ++ chars "."
      if rem' ≤ 0 then (cs', rem', [msg])
      else
        let (cs2, rem2, log2) := distributeLoop aid cs' rem' rest
        (cs2, rem2, msg :: log2)
    | _, _ => distributeLoop aid cs remaining rest

/-- backLoop is the second inner loop of `assign_damage`: every blocker
deals its own power (1 under deathtouch) back to the attacker. -/
def backLoop (aid : Nat) :
    List Creature → List Nat → List Creature × List Str
  | cs, [] => (cs, [])
  | cs, b :: rest =>
    match findC cs b, findC cs aid with
    | some bc, some ac =>
      let dmg := if bc.deathtouch then 1 else bc.power
      let cs' := updC cs aid (fun c => { c with damage := c.damage + dmg })
      let msg := bc.name ++ chars " deals " ++ intToStr dmg ++
        chars " damage to " ++ ac.name ++ chars "."
      let (cs2, log2) := backLoop aid cs' rest
      (cs2, msg :: log2)
    | _, _ => backLoop aid cs rest

/-- resolveAttacker is the body of the outer `for attacker, defender in
self.attackers.items()` loop of `assign_damage`. -/
def resolveAttacker (blockersDict : List (Nat × List Nat))
    (gs : CombatGameState) (aid : Nat) (defender : Defender) :
    CombatGameState × List Str :=
  match findC gs.creatures aid with
  | none => (gs, [])
  | some ac =>
    let blockers :=
      (blockersDict.filter (fun bv => bv.2.contains aid)).map (fun bv => bv.1)
    if blockers.isEmpty then
      let gs' := match defender with
        | .player pid =>
          let ps := updP gs.players pid
            (fun p => { p with life := p.life - ac.power })
          { gs with players := ps }
        | .perm _ => gs
      (gs', [ac.name ++ chars " deals " ++ intToStr ac.power ++
        chars " damage to " ++ defenderName gs defender ++ chars "."])
    else
      let (cs1, rem, log1) := distributeLoop aid gs.creatures ac.power blockers
      let gs1 := { gs with creatures := cs1 }
      let trample := match findC cs1 aid with
        | some a2 => a2.trample
        | none => false
      let (gs2, log2) :=
        if rem > 0 && trample then
          let gsl := match defender with
            | .player pid =>
              let ps := updP gs1.players pid
                (fun p => { p with life := p.life - rem })
              { gs1 with players := ps }
            | .perm _ => gs1
          (gsl, [ac.name ++ chars " deals " ++ intToStr rem ++
            chars " trample damage to " ++ defenderName gs1 defender ++
            chars "."])
        else (gs1, [])
      let (cs3, log3) := backLoop aid gs2.creatures blockers
      ({ gs2 with creatures := cs3 }, log1 ++ log2 ++ log3)

/-- assign_damage mirrors `CombatEngine.assign_damage`: nothing happens
without a `combat` dict; otherwise each declared attacker is resolved in
dict order. -/
def assign_damage (gs : CombatGameState) (eng : CombatEngineState) :
    CombatGameState × List Str :=
  match gs.combat with
  | none => (gs, [])
  | some _ =>
    eng.attackers.foldl
      (fun acc av =>
        let r := resolveAttacker eng.blockers acc.1 av.1 av.2
        (r.1, acc.2 ++ r.2))
      (gs, [])

end Combat

/-! ### Game core (src/game_core/GameState.py, src/game_core/Player.py)

`GameState.zones` aliases the five zone lists stored on each player, so the
embedding keeps a single copy on the player.  Cards live in an arena keyed
by id; the duck-typed `life`/`damage`/`loyalty`/`is_valid` attributes that
other components probe with `hasattr` are optional fields. -/

/-- CardObj models a card object as the game core and effect engine see it.
The `is_valid` field models the optional `is_valid()` target-legality
method (`none` embeds an object without the method, which the stack treats
as legal). -/
structure CardObj where
  id : Nat
  name : Str
  oracle_text : Str := []
  zone : Str := []
  controller : Nat := 0
  is_face_down : Bool := false
  life : Option Int := none
  damage : Option Int := none
  loyalty : Option Int := none
  is_valid : Option Bool := none
  deriving DecidableEq, Repr

/-- PlayerObj models a `Player`: life total and the five zone lists of card
ids. -/
structure PlayerObj where
  id : Nat
  name : Str
  life : Int := 20
  hand : List Nat := []
  library : List Nat := []
  battlefield : List Nat := []
  graveyard : List Nat := []
  exile : List Nat := []
  is_valid : Option Bool := none
  deriving DecidableEq, Repr

/-- GameSt is the mutable game state: player and card arenas, plus the
optional trigger engine modelled as the list of source names of registered
placeholder ETB triggers. -/
structure GameSt where
  players : List PlayerObj
  cards : List CardObj
  hasTriggerEngine : Bool := false
  etbTriggers : List Str := []
  deriving DecidableEq, Repr

namespace GameCore

/-- findPlayer follows a player reference. -/
def findPlayer (ps : List PlayerObj) (pid : Nat) : Option PlayerObj :=
  ps.find? (fun p => p.id == pid)

/-- updPlayer rewrites the player with the given id. -/
def updPlayer (ps : List PlayerObj) (pid : Nat) (f : PlayerObj → PlayerObj) :
    List PlayerObj :=
  ps.map (fun p => if p.id == pid then f p else p)

/-- findCard follows a card reference. -/
def findCard (cs : List CardObj) (cid : Nat) : Option CardObj :=
  cs.find? (fun c => c.id == cid)

/-- updCard rewrites the card with the given id. -/
def updCard (cs : List CardObj) (cid : Nat) (f : CardObj → CardObj) :
    List CardObj :=
  cs.map (fun c => if c.id == cid then f c else c)

/-- zoneNames are the five zones every registered player owns. -/
def zoneNames : List Str :=
  [chars "hand", chars "library", chars "battlefield", chars "graveyard",
   chars "exile"]

/-- zoneGet reads one of the five zone lists by name. -/
def zoneGet (p : PlayerObj) (z : Str) : List Nat :=
  if z == chars "hand" then p.hand
  else if z == chars "library" then p.library
  else if z == chars "battlefield" then p.battlefield
  else if z == chars "graveyard" then p.graveyard
  else if z == chars "exile" then p.exile
  else []

/-- zoneSet writes one of the five zone lists by name. -/
def zoneSet (p : PlayerObj) (z : Str) (l : List Nat) : PlayerObj :=
  if z == chars "hand" then { p with hand := l }
  else if z == chars "library" then { p with library := l }
  else if z == chars "battlefield" then { p with battlefield := l }
  else if z == chars "graveyard" then { p with graveyard := l }
  else if z == chars "exile" then { p with exile := l }
  else p

/-- removeFirst is Python `lst.remove(x)` guarded by `if x in lst`: drop the
first occurrence, identity when absent. -/
def removeFirst : List Nat → Nat → List Nat
  | [], _ => []
  | x :: xs, y => if x == y then xs else x :: removeFirst xs y

/-- purgePlayer removes the card from every zone list of one player (the
inner loops of `move_card`). -/
def purgePlayer (p : PlayerObj) (cid : Nat) : PlayerObj :=
  { p with
    hand := removeFirst p.hand cid
    library := removeFirst p.library cid
    battlefield := removeFirst p.battlefield cid
    graveyard := removeFirst p.graveyard cid
    exile := removeFirst p.exile cid }

/-- move_card mirrors `GameState.move_card`: validate player and zone,
remove the card from every zone list of every player, update the card's
attributes, append it to the destination, and register the placeholder ETB
trigger when appropriate. -/
def move_card (s : GameSt) (cid : Nat) (pid : Nat) (newZone : Str)
    (faceDown : Bool) : Except Str (GameSt × Str) :=
  if !(s.players.any (fun p => p.id == pid)) then
    .error (chars "Player not managed by this GameState")
  else if !(zoneNames.contains newZone) then
    .error (chars "Unknown zone: " ++ newZone)
  else
    let purged := s.players.map (fun p => purgePlayer p cid)
    let cards := updCard s.cards cid (fun c =>
      { c with zone := newZone, is_face_down := faceDown, controller := pid })
    let players := purged.map (fun p =>
      if p.id == pid then zoneSet p newZone (zoneGet p newZone ++ [cid])
      else p)
    let cardName := match findCard s.cards cid with
      | some c => c.name
      | none => chars "<card>"
    let oracle := match findCard s.cards cid with
      | some c => c.oracle_text
      | none => []
    let s1 : GameSt := { s with players := players, cards := cards }
    let s2 :=
      if newZone == chars "battlefield" && s.hasTriggerEngine &&
          pyContains (pyLower oracle) (chars "enters the battlefield") then
        { s1 with etbTriggers := s1.etbTriggers ++ [cardName] }
      else s1
    .ok (s2, cardName ++ chars " moves to " ++ newZone ++ chars ".")

/-- playerDraw mirrors `Player.draw`: move cards from the top of the
library to the hand; drawing from an empty library calls `Player.lose`,
which sets life to 0, and stops. -/
def playerDraw (s : GameSt) (pid : Nat) : Nat → GameSt
  | 0 => s
  | k + 1 =>
    match findPlayer s.players pid with
    | none => s
    | some p =>
      match p.library with
      | [] =>
        let ps := updPlayer s.players pid (fun q => { q with life := 0 })
        { s with players := ps }
      | c :: rest =>
        let ps := updPlayer s.players pid
          (fun q => { q with library := rest, hand := q.hand ++ [c] })
        playerDraw { s with players := ps } pid k

/-- playerOcc counts the occurrences of a card across one player's five
zone lists. -/
def playerOcc (p : PlayerObj) (cid : Nat) : Nat :=
  p.hand.count cid + p.library.count cid + p.battlefield.count cid +
  p.graveyard.count cid + p.exile.count cid

/-- totalOcc counts the occurrences of a card across all zone lists of all
managed players. -/
def totalOcc (s : GameSt) (cid : Nat) : Nat :=
  (s.players.map (fun p => playerOcc p cid)).sum

end GameCore

/-! ### Effect engine (src/effect_engine.py)

The IR is the JSON-like tree walked by `EffectEngine._walk`: `None`, lists,
and dicts.  A dict node carries every key the engine reads, each as an
optional field (absent key = `none`).  Execution threads the game state and
the per-context `DynamicReferenceManager` and returns the log string;
`Except` models a propagating Python exception (from `move_card`) and the
interpreter recursion limit. -/

/-- ObjRef is a reference to a runtime object: a player, a card, or a plain
value (such as a token descriptor string stored in the reference manager). -/
inductive ObjRef where
  | player (pid : Nat)
  | card (cid : Nat)
  | value (s : Str)
  deriving DecidableEq, Repr

/-- TargetField is the value of a `target`/`target_resolved` key: a single
object or a Python list of objects (which may contain `None` entries). -/
inductive TargetField where
  | one (r : ObjRef)
  | many (rs : List (Option ObjRef))
  deriving DecidableEq, Repr

/-- Ir mirrors the effect-tree values walked by `EffectEngine._walk`.  The
`dict` constructor fields are, in order: type tag, condition, then-branch,
else-branch, modal choices, repeat flag, effect chain, action, amount,
reference tag, resolved target, target, store-as tag, token, raw text,
keyword, mod, reveal, position. -/
inductive Ir where
  | pynone
  | list (xs : List Ir)
  | dict (type_ : Option Str) (condition : Str) (thenB : Ir) (elseB : Ir)
      (modalChoices : List Ir) (repeatFlag : Bool)
      (effectChain : Option (List Ir)) (action : Option Str)
      (amount : Option Int) (referenceTag : Option Str)
      (targetResolved : Option TargetField) (target : Option TargetField)
      (storeAs : Option Str) (token : Option Str) (rawText : Option Str)
      (keyword : Option Str) (modStr : Option Str) (reveal : Option Str)
      (position : Option Str)

/-- DynRefs models the `DynamicReferenceManager` dict; a stored `none`
embeds `set_reference(tag, None)`. -/
abbrev DynRefs := List (Str × Option ObjRef)

/-- EffCtx is the slice of `EffectContext` the engine reads: controller,
resolved targets, the `modal_choice` flag, and whether a game state was
supplied. -/
structure EffCtx where
  controller : Nat
  targets : List ObjRef := []
  modalChoice : Option Int := none
  hasGameState : Bool := true

namespace EffectEngine

open GameCore

/-- assocPut models Python dict assignment for string keys. -/
def assocPut (l : DynRefs) (k : Str) (v : Option ObjRef) : DynRefs :=
  if l.any (fun kv => kv.1 == k) then
    l.map (fun kv => if kv.1 == k then (k, v) else kv)
  else l ++ [(k, v)]

/-- lookupRef models `DynamicReferenceManager.resolve`: a missing key and a
stored `None` are indistinguishable, both yield `None`. -/
def lookupRef (l : DynRefs) (k : Str) : Option ObjRef :=
  match l.find? (fun kv => kv.1 == k) with
  | some kv => kv.2
  | none => none

/-- truthyTF is Python truthiness for a target field: absent and the empty
list are falsy. -/
def truthyTF : Option TargetField → Bool
  | none => false
  | some (.many []) => false
  | some _ => true

/-- listifyTF is `target if isinstance(target, list) else [target] if target
else []`. -/
def listifyTF : Option TargetField → List (Option ObjRef)
  | some (.one r) => [some r]
  | some (.many rs) => rs
  | none => []

/-- optStr renders `f-string` interpolation of an optional value, `None`
included. -/
def optStr (v : Option Str) : Str :=
  match v with
  | some s => s
  | none => chars "None"

/-- optIntStr renders an optional integer the way an f-string does. -/
def optIntStr (v : Option Int) : Str :=
  match v with
  | some n => intToStr n
  | none => chars "None"

/-- evaluate_condition mirrors `EffectEngine._evaluate_condition`: the fixed
substring heuristic. -/
def evaluate_condition (condition : Str) : Bool :=
  let c := pyLower condition
  pyContains c (chars "if you do") || pyContains c (chars "if you discarded") ||
  pyContains c (chars "if they can\x27t") ||
  pyContains c (chars "you control a nissa")

/-- dealDamageOne is one iteration of the `deal_damage` target loop: `None`
targets are skipped; a target with a `life` attribute loses life, else one
with `damage` gains marked damage, else one with `loyalty` loses loyalty,
else nothing happens and nothing is logged. -/
def dealDamageOne (s : GameSt) (amount : Int) (tgt : Option ObjRef) :
    GameSt × List Str :=
  match tgt with
  | none => (s, [])
  | some (.player pid) =>
    match findPlayer s.players pid with
    | some p =>
      let ps := updPlayer s.players pid
        (fun q => { q with life := q.life - amount })
      ({ s with players := ps },
       [p.name ++ chars " takes " ++ intToStr amount ++
        chars " damage (life)."])
    | none => (s, [])
  | some (.card cid) =>
    match findCard s.cards cid with
    | some c =>
      if c.life.isSome then
        let cs := updCard s.cards cid
          (fun d => { d with life := d.life.map (fun l => l - amount) })
        ({ s with cards := cs },
         [c.name ++ chars " takes " ++ intToStr amount ++
          chars " damage (life)."])
      else if c.damage.isSome then
        let cs := updCard s.cards cid
          (fun d => { d with damage := d.damage.map (fun l => l + amount) })
        ({ s with cards := cs },
         [c.name ++ chars " takes " ++ intToStr amount ++
          chars " damage (marked)."])
      else if c.loyalty.isSome then
        let cs := updCard s.cards cid
          (fun d => { d with loyalty := d.loyalty.map (fun l => l - amount) })
        ({ s with cards := cs },
         [c.name ++ chars " loses " ++ intToStr amount ++ chars " loyalty."])
      else (s, [])
    | none => (s, [])
  | some (.value _) => (s, [])

/-- dealDamageLoop folds `dealDamageOne` over the target list. -/
def dealDamageLoop (amount : Int) : GameSt → List (Option ObjRef) →
    GameSt × List Str
  | s, [] => (s, [])
  | s, t :: ts =>
    let r := dealDamageOne s amount t
    let rest := dealDamageLoop amount r.1 ts
    (rest.1, r.2 ++ rest.2)

/-- refName renders `getattr(tgt, "name", tgt)` for the destroy log. -/
def refName (s : GameSt) : ObjRef → Str
  | .player pid => match findPlayer s.players pid with
    | some p => p.name
    | none => chars "<player>"
  | .card cid => match findCard s.cards cid with
    | some c => c.name
    | none => chars "<card>"
  | .value v => v

/-- destroyLoop is the `destroy_target` loop: each non-`None` target is
moved to its controller's graveyard through `GameState.move_card` (whose
`ValueError` propagates), then logged.  Only card objects can be moved in
this embedding; the source would pass any object to `move_card`. -/
def destroyLoop (ctx : EffCtx) : GameSt → List (Option ObjRef) →
    Except Str (GameSt × List Str)
  | s, [] => .ok (s, [])
  | s, t :: ts =>
    match t with
    | none => destroyLoop ctx s ts
    | some tgt => do
      let s1 ←
        if ctx.hasGameState then
          match tgt with
          | .card cid =>
            let owner := match findCard s.cards cid with
              | some c => c.controller
              | none => ctx.controller
            do
              let r ← move_card s cid owner (chars "graveyard") false
              pure r.1
          | _ => pure s
        else pure s
      let r ← destroyLoop ctx s1 ts
      .ok (r.1, (chars "Destroying target: " ++ refName s tgt) :: r.2)

end EffectEngine

namespace EffectEngine

open GameCore

/-- applyAction mirrors `EffectEngine._apply_action`: dynamic-reference
resolution, target listification, then the action dispatch chain in source
order.  The Python repr of the whole node in the unknown-action diagnostic
is abbreviated to the action name. -/
def applyAction (a : Str) (amount0 : Option Int) (referenceTag : Option Str)
    (targetResolved target : Option TargetField)
    (storeAs token rawText keyword modStr reveal position : Option Str)
    (ctx : EffCtx) (s : GameSt) (refs : DynRefs) :
    Except Str (GameSt × DynRefs × Str) :=
  let amount := amount0.getD 0
  let tr : Option TargetField :=
    match targetResolved with
    | some tv => some tv
    | none =>
      match referenceTag with
      | some tag =>
        match lookupRef refs tag with
        | some obj => some (.one obj)
        | none => none
      | none => none
  let chosen := if truthyTF tr then tr else target
  let targets := listifyTF chosen
  if a == chars "draw_card" then
    match findPlayer s.players ctx.controller with
    | some p =>
      let count := amount0.getD 1
      .ok (playerDraw s ctx.controller count.toNat, refs,
        p.name ++ chars " draws " ++ intToStr count ++ chars " card(s).")
    | none => .ok (s, refs, [])
  else if a == chars "gain_life" then
    match findPlayer s.players ctx.controller with
    | some p =>
      let amt := amount0.getD 1
      let ps := updPlayer s.players ctx.controller
        (fun q => { q with life := q.life + amt })
      .ok ({ s with players := ps }, refs,
        p.name ++ chars " gains " ++ intToStr amt ++ chars " life.")
    | none => .ok (s, refs, [])
  else if a == chars "lose_life" then
    match findPlayer s.players ctx.controller with
    | some p =>
      let amt := amount0.getD 1
      let ps := updPlayer s.players ctx.controller
        (fun q => { q with life := q.life - amt })
      .ok ({ s with players := ps }, refs,
        p.name ++ chars " loses " ++ intToStr amt ++ chars " life.")
    | none => .ok (s, refs, [])
  else if a == chars "deal_damage" then
    let r := dealDamageLoop amount s targets
    .ok (r.1, refs, pyIntercalate (chars "\n") r.2)
  else if a == chars "grant_keyword" then
    .ok (s, refs, chars "Keyword granted: " ++ optStr keyword)
  else if a == chars "create_token" then
    let refs' := match storeAs with
      | some t =>
        if t.isEmpty then refs else assocPut refs t (token.map ObjRef.value)
      | none => refs
    .ok (s, refs', chars "Token created: " ++ optStr token)
  else if a == chars "apply_pt_modifier" then
    .ok (s, refs, chars "Applied P/T modifier: " ++ optStr modStr ++
      chars " until end of turn")
  else if a == chars "search_library" then
    .ok (s, refs, chars "Searching library (reveal: " ++ optStr reveal ++
      chars ")")
  else if a == chars "discard_cards" then
    .ok (s, refs, chars "Discarding " ++ optIntStr amount0 ++ chars " cards")
  else if a == chars "exile_from_hand" then
    .ok (s, refs, chars "Exiling card from opponent\x27s hand")
  else if a == chars "multi_player_discard" then
    .ok (s, refs, chars "Each opponent discards a card")
  else if a == chars "untap_permanents" then
    .ok (s, refs, chars "Untapping up to " ++ intToStr (amount0.getD 1) ++
      chars " permanents")
  else if a == chars "put_into_library_depth" then
    .ok (s, refs, chars "Put into library " ++ optStr position ++
      chars " from top")
  else if a == chars "destroy_target" then do
    let r ← destroyLoop ctx s targets
    .ok (r.1, refs, pyIntercalate (chars "\n") r.2)
  else if a == chars "conditional_fallback" then
    .ok (s, refs, chars "[INFO] Conditional fallback detected")
  else
    .ok (s, refs, pyIntercalate (chars "\n")
      [chars "[UNKNOWN EFFECT]",
       chars "  Action: " ++ a,
       chars "  Raw Text: " ++ rawText.getD (chars "<missing raw_text>"),
       chars "  Full Effect: " ++ a])

/-- WalkRec is the type of the recursive walk handed to the structural
traversal helpers. -/
abbrev WalkRec :=
  Ir → GameSt × DynRefs → Except Str (GameSt × DynRefs × Str)

/-- joinLogs is `"\n".join(l for l in logs if l)`. -/
def joinLogs (logs : List Str) : Str :=
  pyIntercalate (chars "\n") (logs.filter (fun l => !l.isEmpty))

/-- walkListWith executes the children of a list/chain node in order,
threading state and collecting each child's log. -/
def walkListWith (rec : WalkRec) : List Ir → GameSt × DynRefs →
    Except Str (GameSt × DynRefs × List Str)
  | [], st => .ok (st.1, st.2, [])
  | x :: xs, st => do
    let r ← rec x st
    let rest ← walkListWith rec xs (r.1, r.2.1)
    .ok (rest.1, rest.2.1, r.2.2 :: rest.2.2)

/-- walkRepeatWith re-executes the effect chain once per player (the
`Repeat` branch of `_walk`). -/
def walkRepeatWith (rec : WalkRec) (chain : List Ir) : Nat →
    GameSt × DynRefs → Except Str (GameSt × DynRefs × List Str)
  | 0, st => .ok (st.1, st.2, [])
  | k + 1, st => do
    let r ← walkListWith rec chain st
    let rest ← walkRepeatWith rec chain k (r.1, r.2.1)
    .ok (rest.1, rest.2.1, r.2.2 ++ rest.2.2)

/-- walkFuel mirrors `EffectEngine._walk`; the fuel models the Python
recursion limit and is chosen by `execute` to dominate the walk depth. -/
def walkFuel : Nat → Ir → EffCtx → GameSt × DynRefs →
    Except Str (GameSt × DynRefs × Str)
  | 0, _, _, _ => .error (chars "maximum recursion depth exceeded")
  | fuel + 1, ir, ctx, st =>
    match ir with
    | .pynone => .ok (st.1, st.2, [])
    | .list xs => do
      let r ← walkListWith (fun i t => walkFuel fuel i ctx t) xs st
      .ok (r.1, r.2.1, joinLogs r.2.2)
    | .dict type_ condition thenB elseB modalChoices repeatFlag effectChain
        action amount referenceTag targetResolved target storeAs token
        rawText keyword modStr reveal position =>
      if type_ == some (chars "conditional") then
        if evaluate_condition condition then walkFuel fuel thenB ctx st
        else walkFuel fuel elseB ctx st
      else if !modalChoices.isEmpty then
        let index := ctx.modalChoice.getD 0
        if 0 ≤ index && index < (modalChoices.length : Int) then
          walkFuel fuel (modalChoices.getD index.toNat .pynone) ctx st
        else .ok (st.1, st.2, [])
      else if repeatFlag then
        let pl := if ctx.hasGameState then st.1.players.map (fun p => p.id)
          else []
        let pl := if pl.isEmpty then [ctx.controller] else pl
        do
          let r ← walkRepeatWith (fun i t => walkFuel fuel i ctx t)
            (effectChain.getD []) pl.length st
          .ok (r.1, r.2.1, joinLogs r.2.2)
      else
        match effectChain with
        | some chain => do
          let r ← walkListWith (fun i t => walkFuel fuel i ctx t) chain st
          .ok (r.1, r.2.1, joinLogs r.2.2)
        | none =>
          match action with
          | some a =>
            if a.isEmpty then .ok (st.1, st.2, [])
            else applyAction a amount referenceTag targetResolved target
              storeAs token rawText keyword modStr reveal position ctx
              st.1 st.2
          | none => .ok (st.1, st.2, [])

mutual

/-- irSize measures an effect tree for the fuel computation. -/
def irSize : Ir → Nat
  | .pynone => 1
  | .list xs => 1 + irSizeList xs
  | .dict _ _ t e mc _ ec _ _ _ _ _ _ _ _ _ _ _ _ =>
    1 + irSize t + irSize e + irSizeList mc +
      (match ec with | some l => irSizeList l | none => 0)

/-- irSizeList measures a list of effect trees. -/
def irSizeList : List Ir → Nat
  | [] => 0
  | x :: xs => 1 + irSize x + irSizeList xs

end

/-- execute mirrors `EffectEngine.execute`: walk the tree with enough fuel
for any walk the tree and player count can produce. -/
def execute (ir : Ir) (ctx : EffCtx) (st : GameSt × DynRefs) :
    Except Str (GameSt × DynRefs × Str) :=
  walkFuel ((st.1.players.length + 2) ^ (irSize ir + 1)) ir ctx st

end EffectEngine

/-! ### Stack engine (src/stack_system/StackEngine.py)

The stack is a Python list with its top at the end (`append`/`pop`).  The
injected module-level `narrator` only logs events; the emitted events are
returned so that the resolution outcome (resolved / fizzled / declined) is
observable.  `controller_wants_to_resolve` returns `True` in the source, so
the declined path is dead code kept for faithfulness. -/

/-- StackObject mirrors the dataclass: `sourceName`/`sourceOracle` are the
`name` and `oracle_text` attributes of the `source` object. -/
structure StackObject where
  sourceName : Str := []
  sourceOracle : Str := []
  controller : Nat := 0
  targets : List ObjRef := []
  effect_ir : Ir := .pynone
  name : Str := []
  zone_origin : Str := []
  resolved : Bool := false

/-- StackEvent models the three narrator events of `resolve_top`. -/
inductive StackEvent where
  | fizzled (objName : Str)
  | declined (objName : Str)
  | resolutionDone (objName : Str) (result : Str)

namespace StackEngine

open GameCore EffectEngine

/-- display_name mirrors `StackObject.display_name`: the object's own name
when non-empty (truthy), else the source's name. -/
def display_name (o : StackObject) : Str :=
  if o.name.isEmpty then o.sourceName else o.name

/-- is_optional mirrors the property: "you may" occurs in the source's
oracle text (lowercased). -/
def is_optional (o : StackObject) : Bool :=
  pyContains (pyLower o.sourceOracle) (chars "you may")

/-- controller_wants_to_resolve mirrors the source stub, which always
consents. -/
def controller_wants_to_resolve (_o : StackObject) : Bool := true

/-- isTargetLegal mirrors `StackObject._is_target_legal`: objects exposing
an `is_valid` method are asked, everything else counts as legal. -/
def isTargetLegal (s : GameSt) : ObjRef → Bool
  | .player pid =>
    match findPlayer s.players pid with
    | some p => p.is_valid.getD true
    | none => true
  | .card cid =>
    match findCard s.cards cid with
    | some c => c.is_valid.getD true
    | none => true
  | .value _ => true

/-- has_legal_targets mirrors `StackObject.has_legal_targets`: vacuously
true without declared targets, else some target must be legal. -/
def has_legal_targets (o : StackObject) (s : GameSt) : Bool :=
  o.targets.isEmpty || o.targets.any (isTargetLegal s)

/-- objResolve mirrors `StackObject.resolve`: filter the targets to the
legal subset, fizzle if targets were declared and none survive, otherwise
build a fresh `EffectContext` carrying exactly the legal subset and run the
effect engine. -/
def objResolve (o : StackObject) (s : GameSt) :
    Except Str (StackObject × GameSt × Str) :=
  let legal := o.targets.filter (isTargetLegal s)
  if !o.targets.isEmpty && legal.isEmpty then
    .ok ({ o with resolved := true }, s,
      display_name o ++ chars " fizzles — all targets illegal.")
  else do
    let r ← execute o.effect_ir { controller := o.controller
                                  targets := legal } (s, [])
    .ok ({ o with targets := legal, resolved := true }, r.1, r.2.2)

/-- push mirrors `StackEngine.push`. -/
def push (st : List StackObject) (o : StackObject) : List StackObject :=
  st ++ [o]

/-- pop mirrors `StackEngine.pop`. -/
def pop (st : List StackObject) :
    Option StackObject × List StackObject :=
  match st.getLast? with
  | some o => (some o, st.dropLast)
  | none => (none, st)

/-- peek mirrors `StackEngine.peek`. -/
def peek (st : List StackObject) : Option StackObject := st.getLast?

/-- is_empty mirrors `StackEngine.is_empty`. -/
def is_empty (st : List StackObject) : Bool := st.isEmpty

/-- resolve_top mirrors `StackEngine.resolve_top`: pop, fizzle when no
declared target remains legal (game state untouched, effect engine not
invoked), decline when optional and refused, otherwise resolve through the
effect engine; one narrator event per outcome. -/
def resolve_top (st : List StackObject) (s : GameSt) :
    Except Str (List StackObject × GameSt × List StackEvent × Str) :=
  match st.getLast? with
  | none => .ok (st, s, [], chars "Stack is empty.")
  | some obj =>
    let rest := st.dropLast
    if !has_legal_targets obj s then
      .ok (rest, s, [.fizzled (display_name obj)],
        display_name obj ++ chars " fizzles — all targets illegal.")
    else if is_optional obj && !controller_wants_to_resolve obj then
      .ok (rest, s, [.declined (display_name obj)],
        display_name obj ++ chars " resolution declined.")
    else do
      let r ← objResolve obj s
      .ok (rest, r.2.1, [.resolutionDone (display_name obj) r.2.2], r.2.2)

end StackEngine

/-! ### Concrete scenario fixtures used by the claim theorems and
witnesses -/

/-- d4seven is a descriptor registered with the integer layer 7, which is
not one of the nine documented designations. -/
def d4seven : StaticEffectDescriptor :=
  { target_class := chars "permanent", layer := .int 7 }

/-- d4sub7c is a descriptor with the legal sublayer designation "7c". -/
def d4sub7c : StaticEffectDescriptor :=
  { target_class := chars "permanent", layer := .str (chars "7c") }

/-- c3plus is the +1/+1 descriptor of the layer-ordering scenario, created
at timestamp 1 targeting "creatures you control". -/
def c3plus : StaticEffectDescriptor :=
  { target_class := chars "creatures you control", power_boost := 1,
    toughness_boost := 1, layer := .str (chars "7c"), source_controller := 0,
    timestamp := 1 }

/-- c3minus is the −1/−1 descriptor of the same scenario, timestamp 2. -/
def c3minus : StaticEffectDescriptor :=
  { target_class := chars "creatures you control", power_boost := -1,
    toughness_boost := -1, layer := .str (chars "7c"), source_controller := 0,
    timestamp := 2 }

/-- c3managerA is the manager after registering the timestamp-2 descriptor
first. -/
def c3managerA : StaticEffects.LayerManager := { sub7c := [c3minus] }

/-- c3manager is the manager after then registering the timestamp-1
descriptor: the 7c bucket holds the descriptors in reverse timestamp
order. -/
def c3manager : StaticEffects.LayerManager := { sub7c := [c3minus, c3plus] }

/-- c3mine is a creature the scenario's controller 0 controls. -/
def c3mine : Permanent :=
  { types := [chars "Creature"], controller := 0, abilities := [],
    pt := some (2, 2) }

/-- c3theirs is a creature another player controls (not matched). -/
def c3theirs : Permanent :=
  { types := [chars "Creature"], controller := 1, abilities := [],
    pt := some (4, 4) }

/-- c3state is the battlefield of the layer-ordering scenario. -/
def c3state : LayerGameState := { battlefield := [c3mine, c3theirs] }

/-- c8state is the three-attacker scenario: players Bob (defending) and
Alice (attacking), Alice controlling three creatures of which only the
second is tapped. -/
def c8state : CombatGameState :=
  { players := [{ id := 0, name := chars "Bob", life := 20 },
                { id := 1, name := chars "Alice", life := 20 }],
    creatures :=
      [{ id := 21, name := chars "C1", controller := 1 },
       { id := 22, name := chars "C2", controller := 1, tapped := true },
       { id := 23, name := chars "C3", controller := 1 }] }

/-- c8declared declares all three of Alice's creatures against Bob. -/
def c8declared : List (Nat × Defender) :=
  [(21, .player 0), (22, .player 0), (23, .player 0)]

/-- c2attacker is the power-4 deathtouch attacker without trample. -/
def c2attacker : Creature :=
  { id := 10, name := chars "A", controller := 1, power := 4,
    toughness := 4, deathtouch := true }

/-- c2b1 is the first blocker: toughness 3, no marked damage. -/
def c2b1 : Creature :=
  { id := 11, name := chars "B1", controller := 0, power := 2,
    toughness := 3 }

/-- c2b2 is the second blocker: toughness 2, no marked damage. -/
def c2b2 : Creature :=
  { id := 12, name := chars "B2", controller := 0, power := 1,
    toughness := 2 }

/-- c2state is the combat-damage scenario state (defending player at 20
life, combat dict present). -/
def c2state : CombatGameState :=
  { players := [{ id := 0, name := chars "P0", life := 20 }],
    creatures := [c2attacker, c2b1, c2b2],
    combat := some {} }

/-- c2eng declares the attack on the defending player, blocked by B1 then
B2 in that order. -/
def c2eng : CombatEngineState :=
  { attackers := [(10, .player 0)], blockers := [(11, [10]), (12, [10])] }

/-- c9card is a card sitting in player 0's hand. -/
def c9card : CardObj :=
  { id := 100, name := chars "Bear", zone := chars "hand", controller := 0 }

/-- c9state is a two-player state with the card in player 0's hand. -/
def c9state : GameSt :=
  { players := [{ id := 0, name := chars "P0", hand := [100] },
                { id := 1, name := chars "P1" }],
    cards := [c9card] }

/-- c9after is the state expected after moving the card to player 1's
battlefield. -/
def c9after : GameSt :=
  { players := [{ id := 0, name := chars "P0" },
                { id := 1, name := chars "P1", battlefield := [100] }],
    cards := [{ c9card with zone := chars "battlefield", controller := 1 }] }

/-- c10card is a target exposing both a `life` and a `damage` attribute,
exercising the dispatch precedence. -/
def c10card : CardObj :=
  { id := 7, name := chars "Entity", life := some 10, damage := some 0 }

/-- c10state is the state holding only that target. -/
def c10state : GameSt := { players := [], cards := [c10card] }

/-- c1state holds two candidate targets: card 200 reports invalid and card
201 reports valid. -/
def c1state : GameSt :=
  { players := [{ id := 0, name := chars "P", life := 20 }],
    cards := [{ id := 200, name := chars "T1", is_valid := some false },
              { id := 201, name := chars "T2", is_valid := some true }] }

/-- c1objAllBad is a stack entry whose only declared target is invalid. -/
def c1objAllBad : StackObject :=
  { sourceName := chars "Bolt", controller := 0, targets := [.card 200] }

/-- c1objSomeGood is a stack entry with one invalid and one valid declared
target. -/
def c1objSomeGood : StackObject :=
  { sourceName := chars "Jolt", controller := 0,
    targets := [.card 200, .card 201] }

instance : IsTotal StaticEffectDescriptor
    (fun a b => a.timestamp ≤ b.timestamp) :=
  ⟨fun a b => Nat.le_total a.timestamp b.timestamp⟩

instance : IsTrans StaticEffectDescriptor
    (fun a b => a.timestamp ≤ b.timestamp) :=
  ⟨fun _ _ _ h1 h2 => Nat.le_trans h1 h2⟩

/-! ## Claim theorems -/

/-! ### Tokenizer munch lemmas -/

/-- tokenizeLoop returns nothing on an empty word list, at any fuel. -/
theorem tokenizeLoopNil (f : Nat) : Tokenizer.tokenizeLoop f [] = [] := by
  cases f <;> rfl

/-- One iteration of the munch/classify loop, stated for a non-empty word
list without destructing it. -/
theorem tokenizeLoopStep (f : Nat) (ws : List Str) (h : ws ≠ []) :
    Tokenizer.tokenizeLoop (f + 1) ws =
      if Tokenizer.phraseHit (pyJoinSpace (ws.take 5)) then
        ⟨.triggerWord, pyJoinSpace (ws.take 5), none⟩ ::
          Tokenizer.tokenizeLoop f (ws.drop 5)
      else if Tokenizer.phraseHit (pyJoinSpace (ws.take 4)) then
        ⟨.triggerWord, pyJoinSpace (ws.take 4), none⟩ ::
          Tokenizer.tokenizeLoop f (ws.drop 4)
      else if Tokenizer.phraseHit (pyJoinSpace (ws.take 3)) then
        ⟨.triggerWord, pyJoinSpace (ws.take 3), none⟩ ::
          Tokenizer.tokenizeLoop f (ws.drop 3)
      else if Tokenizer.phraseHit (pyJoinSpace (ws.take 2)) then
        ⟨.triggerWord, pyJoinSpace (ws.take 2), none⟩ ::
          Tokenizer.tokenizeLoop f (ws.drop 2)
      else
        Tokenizer.classifyWord ws.headI :: Tokenizer.tokenizeLoop f ws.tail := by
  cases ws with
  | nil => exact absurd rfl h
  | cons w rest => rfl

/-- The loop result does not depend on the fuel once it is at least the
number of remaining words. -/
theorem tokenizeLoopFuel :
    ∀ (n : Nat) (ws : List Str) (f1 f2 : Nat),
      ws.length ≤ n → ws.length ≤ f1 → ws.length ≤ f2 →
      Tokenizer.tokenizeLoop f1 ws = Tokenizer.tokenizeLoop f2 ws := by
  intro n
  induction n with
  | zero =>
    intro ws f1 f2 hn _ _
    have hws : ws = [] := List.eq_nil_of_length_eq_zero (Nat.le_zero.mp hn)
    subst hws
    rw [tokenizeLoopNil, tokenizeLoopNil]
  | succ n ih =>
    intro ws f1 f2 hn h1 h2
    cases ws with
    | nil => rw [tokenizeLoopNil, tokenizeLoopNil]
    | cons w rest =>
      cases f1 with
      | zero => simp at h1
      | succ a =>
        cases f2 with
        | zero => simp at h2
        | succ b =>
          rw [tokenizeLoopStep a _ (by simp), tokenizeLoopStep b _ (by simp)]
          simp only [List.length_cons] at hn h1 h2
          split_ifs <;> (congr 1; apply ih <;>
            (simp only [List.length_drop, List.length_cons, List.tail_cons]
             omega))

/-- Joining a concatenation of two non-empty word lists inserts a single
space between the joined halves. -/
theorem pyJoinSpaceAppend :
    ∀ (xs ys : List Str), xs ≠ [] → ys ≠ [] →
      pyJoinSpace (xs ++ ys) = pyJoinSpace xs ++ ' ' :: pyJoinSpace ys := by
  intro xs
  induction xs with
  | nil => intro ys h _; exact absurd rfl h
  | cons x xs ih =>
    intro ys _ hy
    cases xs with
    | nil =>
      cases ys with
      | nil => exact absurd rfl hy
      | cons y ys' => simp [pyJoinSpace, pyIntercalate]
    | cons x2 xs' =>
      have h2 := ih ys (by simp) hy
      simp only [pyJoinSpace] at h2
      simp only [pyJoinSpace, List.cons_append, pyIntercalate,
        List.append_assoc]
      exact congrArg (fun z => x ++ ' ' :: ([] ++ z)) h2

/-- A list is a Boolean prefix of itself followed by anything. -/
theorem listIsPrefixApp : ∀ (a b : Str), listIsPrefix a (a ++ b) = true := by
  intro a b
  induction a with
  | nil => rfl
  | cons c cs ih => simp [listIsPrefix, ih]

/-- An explicitly exhibited substring is found by the Python `in` scan. -/
theorem pyContainsApp :
    ∀ (A pat B : Str), pyContains (A ++ pat ++ B) pat = true := by
  intro A
  induction A with
  | nil =>
    intro pat B
    cases pat with
    | nil =>
      cases B with
      | nil => rfl
      | cons b bs => simp [pyContains, listIsPrefix]
    | cons p0 pr =>
      have h := listIsPrefixApp (p0 :: pr) B
      simp only [pyContains, List.cons_append, Bool.or_eq_true]
      exact Or.inl h
  | cons a A' ih =>
    intro pat B
    have h := ih pat B
    cases pat with
    | nil => simp [pyContains, listIsPrefix]
    | cons p0 pr =>
      simp only [pyContains, List.cons_append, Bool.or_eq_true]
      exact Or.inr h

/-- A string accepted by `phraseHit` is a member of the two consulted
tables. -/
theorem phraseHitMem (s : Str)
    (h : Tokenizer.phraseHit s = true) :
    s ∈ Tokenizer.trigger_words ++ Tokenizer.timing_modifiers := by
  simp only [Tokenizer.phraseHit, Bool.or_eq_true] at h
  rcases h with h | h
  · exact List.mem_append.mpr (Or.inl (by simpa using h))
  · exact List.mem_append.mpr (Or.inr (by simpa using h))

/-- Membership in the two consulted tables makes `phraseHit` accept. -/
theorem phraseHitOfMem (s : Str)
    (h : s ∈ Tokenizer.trigger_words ++ Tokenizer.timing_modifiers) :
    Tokenizer.phraseHit s = true := by
  simp only [Tokenizer.phraseHit, Bool.or_eq_true]
  rcases List.mem_append.mp h with h | h
  · exact Or.inl (by simpa using h)
  · exact Or.inr (by simpa using h)

/-- The finite overlap facts about the two multi-word tables that make
maximal munch compositional: each registered 2-5-word phrase round-trips
through split/join, no registered phrase extends another by further words
(prefix-with-space check), no registered phrase contains another strictly
inside (space-padded infix check), and no registered phrase ends with a
space followed by a word-prefix of another (reversed-prefix check). -/
theorem munchTableFacts :
    ∀ p ∈ Tokenizer.trigger_words ++ Tokenizer.timing_modifiers,
    2 ≤ (pyWords p).length → (pyWords p).length ≤ 5 →
    pyJoinSpace (pyWords p) = p ∧
    (∀ r ∈ Tokenizer.trigger_words ++ Tokenizer.timing_modifiers,
      listIsPrefix (p ++ [' ']) r = false) ∧
    (∀ r ∈ Tokenizer.trigger_words ++ Tokenizer.timing_modifiers,
      pyContains r ((' ' :: p) ++ [' ']) = false) ∧
    (∀ r ∈ Tokenizer.trigger_words ++ Tokenizer.timing_modifiers,
      ∀ u, u < 6 → 1 ≤ u →
        listIsPrefix ((' ' :: pyJoinSpace (List.take u (pyWords p))).reverse)
          r.reverse = false) := by
  decide

/-- A munch window that starts strictly inside `pre` and reaches into the
words of a registered 2-5-word phrase never matches either table: its join
would have to be a registered phrase ending with a space-preceded word
prefix of `p`, or containing `p` space-padded strictly inside, and the
table facts rule both out. -/
theorem crossMunchFalse (p : Str)
    (hm2 : 2 ≤ (pyWords p).length)
    (hjoin : pyJoinSpace (pyWords p) = p)
    (hF3 : ∀ r ∈ Tokenizer.trigger_words ++ Tokenizer.timing_modifiers,
      pyContains r ((' ' :: p) ++ [' ']) = false)
    (hF2 : ∀ r ∈ Tokenizer.trigger_words ++ Tokenizer.timing_modifiers,
      ∀ u, u < 6 → 1 ≤ u →
        listIsPrefix ((' ' :: pyJoinSpace (List.take u (pyWords p))).reverse)
          r.reverse = false)
    (pre post : List Str) (hpre : pre ≠ []) (t : Nat) (ht5 : t ≤ 5)
    (hlt : pre.length < t) :
    Tokenizer.phraseHit
      (pyJoinSpace (List.take t (pre ++ pyWords p ++ post))) = false := by
  cases hph : Tokenizer.phraseHit
      (pyJoinSpace (List.take t (pre ++ pyWords p ++ post)))
  · rfl
  exfalso
  have hmem := phraseHitMem _ hph
  have htake : List.take t (pre ++ pyWords p ++ post)
      = pre ++ List.take (t - pre.length) (pyWords p ++ post) := by
    rw [List.append_assoc, List.take_append_eq_append_take,
        List.take_all_of_le (Nat.le_of_lt hlt)]
  by_cases hq : List.take (t - pre.length - (pyWords p).length) post = []
  · have hx : List.take (t - pre.length) (pyWords p ++ post)
        = List.take (t - pre.length) (pyWords p) := by
      rw [List.take_append_eq_append_take, hq, List.append_nil]
    obtain ⟨w1, pwtl, hpw⟩ : ∃ w1 pwtl, pyWords p = w1 :: pwtl := by
      cases hpwc : pyWords p with
      | nil => rw [hpwc] at hm2; simp at hm2
      | cons a l => exact ⟨a, l, rfl⟩
    have hu1 : 1 ≤ t - pre.length := by omega
    have hxne : List.take (t - pre.length) (pyWords p) ≠ [] := by
      rw [hpw]
      cases hc : t - pre.length with
      | zero => omega
      | succ u' => simp
    have hjsplit : pyJoinSpace (List.take t (pre ++ pyWords p ++ post))
        = pyJoinSpace pre ++
            ' ' :: pyJoinSpace (List.take (t - pre.length) (pyWords p)) := by
      rw [htake, hx, pyJoinSpaceAppend pre _ hpre hxne]
    rw [hjsplit] at hmem
    have hfalse := hF2 _ hmem (t - pre.length) (by omega) hu1
    have htrue : listIsPrefix
        ((' ' :: pyJoinSpace (List.take (t - pre.length) (pyWords p))).reverse)
        ((pyJoinSpace pre ++
          ' ' :: pyJoinSpace (List.take (t - pre.length) (pyWords p))).reverse)
        = true := by
      rw [List.reverse_append]
      exact listIsPrefixApp _ _
    rw [htrue] at hfalse
    simp at hfalse
  · have hq1 : (pyWords p).length < t - pre.length := by
      by_contra hc
      push_neg at hc
      have h0 : t - pre.length - (pyWords p).length = 0 := by omega
      rw [h0] at hq
      exact hq rfl
    have hx : List.take (t - pre.length) (pyWords p ++ post)
        = pyWords p ++ List.take (t - pre.length - (pyWords p).length) post := by
      rw [List.take_append_eq_append_take,
          List.take_all_of_le (Nat.le_of_lt hq1)]
    obtain ⟨q0, qtl, hq0⟩ : ∃ q0 qtl,
        List.take (t - pre.length - (pyWords p).length) post = q0 :: qtl := by
      cases hqc : List.take (t - pre.length - (pyWords p).length) post with
      | nil => exact absurd hqc hq
      | cons a l => exact ⟨a, l, rfl⟩
    have hpwne : pyWords p ≠ [] := by
      intro hnil; rw [hnil] at hm2; simp at hm2
    have hjsplit : pyJoinSpace (List.take t (pre ++ pyWords p ++ post))
        = pyJoinSpace pre ++
            ((' ' :: p) ++ [' ']) ++ pyJoinSpace (q0 :: qtl) := by
      rw [htake, hx, hq0,
          pyJoinSpaceAppend pre _ hpre
            (fun hc => hpwne (List.append_eq_nil.mp hc).1),
          pyJoinSpaceAppend (pyWords p) _ hpwne (by simp), hjoin]
      simp [List.append_assoc]
    rw [hjsplit] at hmem
    have hfalse := hF3 _ hmem
    have htrue := pyContainsApp (pyJoinSpace pre) ((' ' :: p) ++ [' '])
      (pyJoinSpace (q0 :: qtl))
    rw [htrue] at hfalse
    simp at hfalse

/-- A munch window that starts exactly at a registered 2-5-word phrase and
extends beyond it never matches either table: its join would be a registered
phrase extending `p` by further words, which the prefix fact rules out. -/
theorem spanWindowFalse (p : Str)
    (hm2 : 2 ≤ (pyWords p).length)
    (hjoin : pyJoinSpace (pyWords p) = p)
    (hF1 : ∀ r ∈ Tokenizer.trigger_words ++ Tokenizer.timing_modifiers,
      listIsPrefix (p ++ [' ']) r = false)
    (q0 : Str) (qs : List Str) (t : Nat)
    (hmt : (pyWords p).length < t) :
    Tokenizer.phraseHit
      (pyJoinSpace (List.take t (pyWords p ++ q0 :: qs))) = false := by
  cases hph : Tokenizer.phraseHit
      (pyJoinSpace (List.take t (pyWords p ++ q0 :: qs)))
  · rfl
  exfalso
  have hmem := phraseHitMem _ hph
  have hpwne : pyWords p ≠ [] := by
    intro hnil; rw [hnil] at hm2; simp at hm2
  obtain ⟨k, hk⟩ : ∃ k, t - (pyWords p).length = k + 1 :=
    ⟨t - (pyWords p).length - 1, by omega⟩
  have htake : List.take t (pyWords p ++ q0 :: qs)
      = pyWords p ++ q0 :: List.take k qs := by
    rw [List.take_append_eq_append_take,
        List.take_of_length_le (Nat.le_of_lt hmt), hk]
    rfl
  have hjs : pyJoinSpace (List.take t (pyWords p ++ q0 :: qs))
      = (p ++ [' ']) ++ pyJoinSpace (q0 :: List.take k qs) := by
    rw [htake, pyJoinSpaceAppend (pyWords p) _ hpwne (by simp), hjoin,
        List.append_assoc, List.singleton_append]
  rw [hjs] at hmem
  have hfalse := hF1 _ hmem
  have htrue := listIsPrefixApp (p ++ [' '])
    (pyJoinSpace (q0 :: List.take k qs))
  rw [htrue] at hfalse
  simp at hfalse

/-- When the scanner stands exactly at a registered 2-5-word phrase, the
iteration emits the single trigger token spanning the whole phrase and
resumes exactly after it. -/
theorem spanStart (p : Str)
    (hph : Tokenizer.phraseHit p = true)
    (hm2 : 2 ≤ (pyWords p).length) (hm5 : (pyWords p).length ≤ 5)
    (hjoin : pyJoinSpace (pyWords p) = p)
    (hF1 : ∀ r ∈ Tokenizer.trigger_words ++ Tokenizer.timing_modifiers,
      listIsPrefix (p ++ [' ']) r = false)
    (post : List Str) :
    Tokenizer.tokenizeLoop (pyWords p ++ post).length (pyWords p ++ post) =
      ⟨.triggerWord, p, none⟩ :: Tokenizer.tokenizeLoop post.length post := by
  have hpwne : pyWords p ≠ [] := by
    intro hnil; rw [hnil] at hm2; simp at hm2
  obtain ⟨f, hf⟩ : ∃ f, (pyWords p ++ post).length = f + 1 := by
    cases hl : (pyWords p ++ post).length with
    | zero =>
      exfalso; rw [List.length_append] at hl; omega
    | succ k => exact ⟨k, rfl⟩
  have hfge : post.length ≤ f := by
    rw [List.length_append] at hf; omega
  rw [hf, tokenizeLoopStep f _
    (fun hc => hpwne (List.append_eq_nil.mp hc).1)]
  cases post with
  | nil =>
    have htk : List.take 5 (pyWords p ++ ([] : List Str)) = pyWords p := by
      rw [List.append_nil]; exact List.take_of_length_le hm5
    have hdp : List.drop 5 (pyWords p ++ ([] : List Str)) = [] := by
      rw [List.append_nil]; exact List.drop_eq_nil_of_le hm5
    have hcond : Tokenizer.phraseHit
        (pyJoinSpace (List.take 5 (pyWords p ++ ([] : List Str)))) = true := by
      rw [htk, hjoin]; exact hph
    rw [if_pos hcond, htk, hjoin, hdp, tokenizeLoopNil, tokenizeLoopNil]
  | cons q0 qs =>
    have hm : (pyWords p).length = 2 ∨ (pyWords p).length = 3 ∨
        (pyWords p).length = 4 ∨ (pyWords p).length = 5 := by omega
    have htkm : List.take (pyWords p).length (pyWords p ++ q0 :: qs)
        = pyWords p := by
      rw [List.take_append_eq_append_take,
          List.take_of_length_le (le_refl _), Nat.sub_self]
      simp
    have hdpm : List.drop (pyWords p).length (pyWords p ++ q0 :: qs)
        = q0 :: qs := by
      rw [List.drop_append_eq_append_drop, Nat.sub_self, List.drop_length]
      simp
    have hcondm : Tokenizer.phraseHit (pyJoinSpace
        (List.take (pyWords p).length (pyWords p ++ q0 :: qs))) = true := by
      rw [htkm, hjoin]; exact hph
    have hrec : Tokenizer.tokenizeLoop f (q0 :: qs)
        = Tokenizer.tokenizeLoop (q0 :: qs).length (q0 :: qs) :=
      tokenizeLoopFuel (q0 :: qs).length _ f _ (le_refl _) hfge (le_refl _)
    rcases hm with hm | hm | hm | hm
    · have h5 := spanWindowFalse p hm2 hjoin hF1 q0 qs 5 (by omega)
      have h4 := spanWindowFalse p hm2 hjoin hF1 q0 qs 4 (by omega)
      have h3 := spanWindowFalse p hm2 hjoin hF1 q0 qs 3 (by omega)
      rw [if_neg (by simp [h5]), if_neg (by simp [h4]), if_neg (by simp [h3]),
          if_pos (by rw [← hm]; exact hcondm), ← hm, htkm, hjoin, hdpm, hrec]
    · have h5 := spanWindowFalse p hm2 hjoin hF1 q0 qs 5 (by omega)
      have h4 := spanWindowFalse p hm2 hjoin hF1 q0 qs 4 (by omega)
      rw [if_neg (by simp [h5]), if_neg (by simp [h4]),
          if_pos (by rw [← hm]; exact hcondm), ← hm, htkm, hjoin, hdpm, hrec]
    · have h5 := spanWindowFalse p hm2 hjoin hF1 q0 qs 5 (by omega)
      rw [if_neg (by simp [h5]),
          if_pos (by rw [← hm]; exact hcondm), ← hm, htkm, hjoin, hdpm, hrec]
    · rw [if_pos (by rw [← hm]; exact hcondm), ← hm, htkm, hjoin, hdpm, hrec]

/-- C6 (amended): maximal munch holds for the phrases the multi-word pass
actually consults.  Whenever the normalized word sequence of an input
string contains, at word boundaries, a phrase registered in the
trigger-word or timing-modifier tables spanning 2 to 5 words, the token
stream contains exactly one token spanning that occurrence: the words
before it are tokenized without reaching into the phrase, the phrase is
emitted as a single trigger token, and scanning resumes exactly after it —
the phrase is never split into its component single-word tokens. -/
theorem C6_trigger_timing_munch :
    ∀ p ∈ Tokenizer.trigger_words ++ Tokenizer.timing_modifiers,
    2 ≤ (pyWords p).length → (pyWords p).length ≤ 5 →
    ∀ (s : Str) (pre post : List Str),
    pyWords (Tokenizer.clean_punctuation (pyLower s)) =
      pre ++ pyWords p ++ post →
    ∃ preToks : List Token,
      Tokenizer.tokenize s =
        preToks ++ ⟨.triggerWord, p, none⟩ ::
          Tokenizer.tokenizeLoop post.length post := by
  intro p hp hm2 hm5 s pre post hs
  obtain ⟨hjoin, hF1, hF3, hF2⟩ := munchTableFacts p hp hm2 hm5
  have hph := phraseHitOfMem p hp
  have key : ∀ (n : Nat) (pre : List Str), pre.length ≤ n →
      ∃ preToks : List Token,
        Tokenizer.tokenizeLoop (pre ++ pyWords p ++ post).length
            (pre ++ pyWords p ++ post) =
          preToks ++ ⟨.triggerWord, p, none⟩ ::
            Tokenizer.tokenizeLoop post.length post := by
    intro n
    induction n with
    | zero =>
      intro pre hlen
      have hpe : pre = [] :=
        List.eq_nil_of_length_eq_zero (Nat.le_zero.mp hlen)
      subst hpe
      refine ⟨[], ?_⟩
      simpa using spanStart p hph hm2 hm5 hjoin hF1 post
    | succ n ih =>
      intro pre hlen
      cases pre with
      | nil =>
        refine ⟨[], ?_⟩
        simpa using spanStart p hph hm2 hm5 hjoin hF1 post
      | cons w pre' =>
        obtain ⟨f, hf⟩ :
            ∃ f, ((w :: pre') ++ pyWords p ++ post).length = f + 1 :=
          ⟨(pre' ++ pyWords p ++ post).length, by
            simp only [List.length_append, List.length_cons]; omega⟩
        have hstep := tokenizeLoopStep f ((w :: pre') ++ pyWords p ++ post)
          (by simp)
        by_cases h5 : Tokenizer.phraseHit (pyJoinSpace
            (List.take 5 ((w :: pre') ++ pyWords p ++ post))) = true
        · by_cases h5l : 5 ≤ (w :: pre').length
          · have hdrop : List.drop 5 ((w :: pre') ++ pyWords p ++ post)
                = List.drop 5 (w :: pre') ++ pyWords p ++ post := by
              rw [List.append_assoc, List.drop_append_eq_append_drop,
                  show 5 - (w :: pre').length = 0 by omega, List.drop_zero,
                  ← List.append_assoc]
            obtain ⟨toks, htoks⟩ := ih (List.drop 5 (w :: pre'))
              (by simp only [List.length_drop, List.length_cons] at hlen ⊢; omega)
            refine ⟨⟨.triggerWord, pyJoinSpace
              (List.take 5 ((w :: pre') ++ pyWords p ++ post)), none⟩
                :: toks, ?_⟩
            rw [hf, hstep, if_pos h5, hdrop]
            have hfl : (List.drop 5 (w :: pre') ++ pyWords p ++ post).length
                ≤ f := by
              simp only [List.length_append, List.length_drop,
                List.length_cons] at hf ⊢
              omega
            rw [tokenizeLoopFuel _ _ f _ (le_refl _) hfl (le_refl _), htoks]
            rfl
          · exfalso
            have hcf := crossMunchFalse p hm2 hjoin hF3 hF2 (w :: pre') post
              (by simp) 5 (le_refl 5) (by omega)
            rw [hcf] at h5
            simp at h5
        · by_cases h4 : Tokenizer.phraseHit (pyJoinSpace
              (List.take 4 ((w :: pre') ++ pyWords p ++ post))) = true
          · by_cases h4l : 4 ≤ (w :: pre').length
            · have hdrop : List.drop 4 ((w :: pre') ++ pyWords p ++ post)
                  = List.drop 4 (w :: pre') ++ pyWords p ++ post := by
                rw [List.append_assoc, List.drop_append_eq_append_drop,
                    show 4 - (w :: pre').length = 0 by omega, List.drop_zero,
                    ← List.append_assoc]
              obtain ⟨toks, htoks⟩ := ih (List.drop 4 (w :: pre'))
                (by simp only [List.length_drop, List.length_cons] at hlen ⊢; omega)
              refine ⟨⟨.triggerWord, pyJoinSpace
                (List.take 4 ((w :: pre') ++ pyWords p ++ post)), none⟩
                  :: toks, ?_⟩
              rw [hf, hstep, if_neg h5, if_pos h4, hdrop]
              have hfl : (List.drop 4 (w :: pre') ++ pyWords p ++ post).length
                  ≤ f := by
                simp only [List.length_append, List.length_drop,
                  List.length_cons] at hf ⊢
                omega
              rw [tokenizeLoopFuel _ _ f _ (le_refl _) hfl (le_refl _), htoks]
              rfl
            · exfalso
              have hcf := crossMunchFalse p hm2 hjoin hF3 hF2 (w :: pre') post
                (by simp) 4 (by omega) (by omega)
              rw [hcf] at h4
              simp at h4
          · by_cases h3 : Tokenizer.phraseHit (pyJoinSpace
                (List.take 3 ((w :: pre') ++ pyWords p ++ post))) = true
            · by_cases h3l : 3 ≤ (w :: pre').length
              · have hdrop : List.drop 3 ((w :: pre') ++ pyWords p ++ post)
                    = List.drop 3 (w :: pre') ++ pyWords p ++ post := by
                  rw [List.append_assoc, List.drop_append_eq_append_drop,
                      show 3 - (w :: pre').length = 0 by omega, List.drop_zero,
                      ← List.append_assoc]
                obtain ⟨toks, htoks⟩ := ih (List.drop 3 (w :: pre'))
                  (by simp only [List.length_drop, List.length_cons] at hlen ⊢
                      omega)
                refine ⟨⟨.triggerWord, pyJoinSpace
                  (List.take 3 ((w :: pre') ++ pyWords p ++ post)), none⟩
                    :: toks, ?_⟩
                rw [hf, hstep, if_neg h5, if_neg h4, if_pos h3, hdrop]
                have hfl :
                    (List.drop 3 (w :: pre') ++ pyWords p ++ post).length
                      ≤ f := by
                  simp only [List.length_append, List.length_drop,
                    List.length_cons] at hf ⊢
                  omega
                rw [tokenizeLoopFuel _ _ f _ (le_refl _) hfl (le_refl _),
                    htoks]
                rfl
              · exfalso
                have hcf := crossMunchFalse p hm2 hjoin hF3 hF2 (w :: pre')
                  post (by simp) 3 (by omega) (by omega)
                rw [hcf] at h3
                simp at h3
            · by_cases h2 : Tokenizer.phraseHit (pyJoinSpace
                  (List.take 2 ((w :: pre') ++ pyWords p ++ post))) = true
              · by_cases h2l : 2 ≤ (w :: pre').length
                · have hdrop : List.drop 2 ((w :: pre') ++ pyWords p ++ post)
                      = List.drop 2 (w :: pre') ++ pyWords p ++ post := by
                    rw [List.append_assoc, List.drop_append_eq_append_drop,
                        show 2 - (w :: pre').length = 0 by omega,
                        List.drop_zero, ← List.append_assoc]
                  obtain ⟨toks, htoks⟩ := ih (List.drop 2 (w :: pre'))
                    (by simp only [List.length_drop, List.length_cons] at hlen ⊢
                        omega)
                  refine ⟨⟨.triggerWord, pyJoinSpace
                    (List.take 2 ((w :: pre') ++ pyWords p ++ post)), none⟩
                      :: toks, ?_⟩
                  rw [hf, hstep, if_neg h5, if_neg h4, if_neg h3, if_pos h2,
                      hdrop]
                  have hfl :
                      (List.drop 2 (w :: pre') ++ pyWords p ++ post).length
                        ≤ f := by
                    simp only [List.length_append, List.length_drop,
                      List.length_cons] at *
                    omega
                  rw [tokenizeLoopFuel _ _ f _ (le_refl _) hfl (le_refl _),
                      htoks]
                  rfl
                · exfalso
                  have hcf := crossMunchFalse p hm2 hjoin hF3 hF2 (w :: pre')
                    post (by simp) 2 (by omega) (by omega)
                  rw [hcf] at h2
                  simp at h2
              · obtain ⟨toks, htoks⟩ := ih pre'
                  (by simp only [List.length_cons] at hlen; omega)
                refine ⟨Tokenizer.classifyWord w :: toks, ?_⟩
                have hhead : ((w :: pre') ++ pyWords p ++ post).headI = w := by
                  simp
                have htail : ((w :: pre') ++ pyWords p ++ post).tail
                    = pre' ++ pyWords p ++ post := by
                  simp
                rw [hf, hstep, if_neg h5, if_neg h4, if_neg h3, if_neg h2,
                    hhead, htail]
                have hfl : (pre' ++ pyWords p ++ post).length ≤ f := by
                  simp only [List.length_append, List.length_cons] at hf ⊢
                  omega
                rw [tokenizeLoopFuel _ _ f _ (le_refl _) hfl (le_refl _),
                    htoks]
                rfl
  obtain ⟨toks, htoks⟩ := key pre.length pre (le_refl _)
  refine ⟨toks, ?_⟩
  have ht : Tokenizer.tokenize s
      = Tokenizer.tokenizeLoop
          (pyWords (Tokenizer.clean_punctuation (pyLower s))).length
          (pyWords (Tokenizer.clean_punctuation (pyLower s))) := rfl
  rw [ht, hs, htoks]

/-- C6 counterexamples forcing the two restrictions of the amended claim:
the registered 6-word trigger phrase "at the start of your upkeep" is split
into 6 separate single-word tokens (the munch pass joins windows of at most
5 words), and the registered 2-word ability keyword "first strike" is split
into 2 single-word tokens (the munch pass consults only the trigger-word
and timing-modifier tables) — in both cases no token spans the phrase. -/
theorem C6_counterexample :
    (chars "at the start of your upkeep" ∈ Tokenizer.trigger_words ∧
      (pyWords (chars "at the start of your upkeep")).length = 6 ∧
      Tokenizer.tokenize (chars "at the start of your upkeep") =
        [⟨.unknown, chars "at", none⟩,
         ⟨.articleDefinite, chars "the", none⟩,
         ⟨.unknown, chars "start", none⟩,
         ⟨.preposition, chars "of", none⟩,
         ⟨.pronounPossessive, chars "your", none⟩,
         ⟨.unknown, chars "upkeep", none⟩]) ∧
    (chars "first strike" ∈ Tokenizer.ability_keywords ∧
      (pyWords (chars "first strike")).length = 2 ∧
      Tokenizer.tokenize (chars "first strike") =
        [⟨.unknown, chars "first", none⟩,
         ⟨.unknown, chars "strike", none⟩]) := by
  refine ⟨⟨by decide, by decide, by decide⟩, by decide, by decide, by decide⟩

/-- C6 witness: inside the sentence "tap it end of turn stuff" the
registered 3-word timing phrase "end of turn" is emitted as one spanning
trigger token, with scanning resuming at the following word. -/
theorem C6_witness :
    ∃ preToks : List Token,
      Tokenizer.tokenize (chars "tap it end of turn stuff") =
        preToks ++ ⟨.triggerWord, chars "end of turn", none⟩ ::
          Tokenizer.tokenizeLoop ([chars "stuff"]).length [chars "stuff"] :=
  C6_trigger_timing_munch (chars "end of turn") (by decide) (by decide)
    (by decide) (chars "tap it end of turn stuff")
    [chars "tap", chars "it"] [chars "stuff"] (by decide)

/-- C5: the compiler does not terminate on the input "for each creature".
Any segment containing "for each" but not "repeat this process" selects the
Repeat branch, whose `_clean_repeat_text` returns the text unchanged, so
`compile` recurses on the identical string: no recursion depth suffices
(first conjunct), because the recursive argument equals the input (second
conjunct). -/
theorem C5_nonterminating_input :
    (∀ fuel, OracleASTCompiler.compileFuel fuel (chars "for each creature") =
      none) ∧
    OracleASTCompiler.clean_repeat_text (chars "for each creature") =
      chars "for each creature" := by
  constructor
  · intro fuel
    induction fuel with
    | zero => rfl
    | succ k ih =>
      have h : OracleASTCompiler.compileFuel (k + 1)
          (chars "for each creature") =
          Option.bind (Option.bind
            (OracleASTCompiler.compileFuel k (chars "for each creature"))
            (fun c => some [Ast.repeatNode (chars "for each creature") c]))
            (fun a => Option.bind (some []) (fun b => some (a ++ b))) := rfl
      rw [h, ih]
      rfl
  · rfl

/-- parseEffectAuxNoMatch: walking any registry whose phrases all miss the
text reaches the diagnostic fallback. -/
theorem parseEffectAuxNoMatch
    (reg : List (String × List Str × (Str → PyVal))) (t : Str)
    (h : ∀ e ∈ reg, ∀ p ∈ e.2.1, pyContains t p = false) :
    EffectPhraseRegistry.parseEffectAux reg t =
      EffectPhraseRegistry.unparsedEffectDict t := by
  induction reg with
  | nil => rfl
  | cons e rest ih =>
    have he : ∀ p ∈ e.2.1, pyContains t p = false := h e (by simp)
    have hany : e.2.1.any (fun p => pyContains t p) = false := by
      rw [List.any_eq_false]
      intro p hp
      simp [he p hp]
    obtain ⟨k, phrases, builder⟩ := e
    simp only [EffectPhraseRegistry.parseEffectAux]
    simp only at hany
    rw [hany]
    simp only [Bool.false_eq_true, if_false]
    exact ih (fun e2 h2 => h e2 (by simp [h2]))

/-- C7: a leaf effect text matched by no phrase of any registry entry
parses to the diagnostic dict `action = "unparsed_effect"` carrying the
original text verbatim under `raw_text` (and, the parser being a total
function, parsing a leaf never raises). -/
theorem C7_registry_fallback (t : Str)
    (h : EffectPhraseRegistry.STANDARD_EFFECTS.all
      (fun e => e.2.1.all (fun p => !pyContains t p)) = true) :
    EffectPhraseRegistry.parse_effect t =
      PyVal.dict [("action", PyVal.str (chars "unparsed_effect")),
                  ("raw_text", PyVal.str t)] := by
  apply parseEffectAuxNoMatch
  intro e he p hp
  have h1 := List.all_eq_true.mp h e he
  have h2 := List.all_eq_true.mp h1 p hp
  simpa using h2

/-- C7 witness: the text "shuffle the cosmos" matches no registered phrase
and parses to the verbatim diagnostic leaf. -/
theorem C7_witness :
    EffectPhraseRegistry.parse_effect (chars "shuffle the cosmos") =
      PyVal.dict [("action", PyVal.str (chars "unparsed_effect")),
                  ("raw_text", PyVal.str (chars "shuffle the cosmos"))] :=
  C7_registry_fallback (chars "shuffle the cosmos") (by decide)

/-- C4 counterexample: the integer layer 7 is not one of the nine legal
designations, yet `register_effect` accepts it without raising and appends
the descriptor to the 7d sublayer bucket. -/
theorem C4_counterexample :
    StaticEffects.register_effect {} d4seven = .ok { sub7d := [d4seven] } ∧
    d4seven.layer = .int 7 :=
  ⟨rfl, rfl⟩

/-- C4 (amended): registration succeeds exactly for the nine legal
designations plus the integer 7 (routed to the 7d bucket); a successful
registration grows the buckets by exactly one descriptor, and any other
layer value raises (no bucket is modified). -/
theorem C4_registration_amended :
    (∀ (m : StaticEffects.LayerManager) (e : StaticEffectDescriptor),
      (StaticEffects.register_effect m e).isOk =
        StaticEffects.legalLayerAmended e.layer) ∧
    (∀ (m : StaticEffects.LayerManager) (e : StaticEffectDescriptor) m',
      StaticEffects.register_effect m e = .ok m' →
      StaticEffects.managerSize m' = StaticEffects.managerSize m + 1) := by
  constructor
  · intro m e
    rcases hl : e.layer with n | s | _
    · simp only [StaticEffects.register_effect, StaticEffects.legalLayerAmended,
        hl]
      split_ifs with h1 h2 h3 h4 h5 h6 h7 <;>
        simp_all [Except.isOk, Except.toBool] <;> omega
    · simp only [StaticEffects.register_effect, StaticEffects.legalLayerAmended,
        hl]
      split_ifs with h1 h2 h3 h4 <;>
        simp_all [Except.isOk, Except.toBool]
    · simp [StaticEffects.register_effect, StaticEffects.legalLayerAmended,
        hl, Except.isOk, Except.toBool]
  · intro m e m' h
    rcases hl : e.layer with n | s | _ <;>
      simp only [StaticEffects.register_effect, hl] at h
    · split_ifs at h <;>
        first
          | (simp only [Except.ok.injEq] at h
             subst h
             simp [StaticEffects.managerSize]
             omega)
          | simp at h
    · split_ifs at h <;>
        first
          | (simp only [Except.ok.injEq] at h
             subst h
             simp [StaticEffects.managerSize]
             omega)
          | simp at h
    · simp at h

/-- C4 witness: registering a descriptor with sublayer "7c" on the empty
manager succeeds, growing the buckets to exactly one descriptor. -/
theorem C4_witness :
    (StaticEffects.register_effect {} d4sub7c).isOk =
      StaticEffects.legalLayerAmended d4sub7c.layer ∧
    StaticEffects.managerSize { sub7c := [d4sub7c] } =
      StaticEffects.managerSize {} + 1 :=
  ⟨C4_registration_amended.1 {} d4sub7c,
   C4_registration_amended.2 {} d4sub7c { sub7c := [d4sub7c] } rfl⟩

/-- C3: within every bucket `apply_layers` visits descriptors in ascending
timestamp order (first conjunct: the per-bucket sort is sorted), and in the
concrete two-descriptor 7c scenario — the −1/−1 descriptor of timestamp 2
registered before the +1/+1 descriptor of timestamp 1 — the schedule visits
the timestamp-1 descriptor first, a single application of it boosts the
matched permanent to 3/3, and running both leaves the state exactly where
it started (net power/toughness delta 0), the unmatched permanent
untouched. -/
theorem C3_layer_ordering :
    (∀ l, List.Sorted (fun a b => a.timestamp ≤ b.timestamp)
      (StaticEffects.sortTs l)) ∧
    StaticEffects.register_effect {} c3minus = .ok c3managerA ∧
    StaticEffects.register_effect c3managerA c3plus = .ok c3manager ∧
    StaticEffects.schedule c3manager = [c3plus, c3minus] ∧
    StaticEffects.descApply c3plus c3state =
      ⟨[{ c3mine with pt := some (3, 3) }, c3theirs]⟩ ∧
    StaticEffects.apply_layers c3manager c3state = c3state := by
  refine ⟨fun l => List.sorted_insertionSort _ l, rfl, rfl, by decide,
    by decide, by decide⟩

/-- findCUpdCIsSome: rewriting a creature that keeps its id does not change
which ids can be found. -/
theorem findCUpdCIsSome (cs : List Creature) (k j : Nat)
    (f : Creature → Creature) (hf : ∀ c, (f c).id = c.id) :
    (Combat.findC (Combat.updC cs k f) j).isSome =
      (Combat.findC cs j).isSome := by
  induction cs with
  | nil => rfl
  | cons c rest ih =>
    have hid : ((if (c.id == k) = true then f c else c).id) = c.id := by
      split <;> simp [hf]
    by_cases hj : c.id = j
    · have h1 : ((if (c.id == k) = true then f c else c).id == j) = true := by
        rw [hid]
        exact beq_iff_eq.mpr hj
      have h2 : (c.id == j) = true := beq_iff_eq.mpr hj
      simp only [Combat.findC, Combat.updC, List.map_cons, List.find?, h1, h2]
      rfl
    · have h1 : ((if (c.id == k) = true then f c else c).id == j) = false := by
        rw [hid]
        simp [hj]
      have h2 : (c.id == j) = false := by simp [hj]
      simp only [Combat.findC, Combat.updC, List.map_cons, List.find?, h1,
        h2] at ih ⊢
      exact ih

/-- declareStepEffects: when the declared creature exists, one loop
iteration of `declare_attackers` appends exactly one log message and
preserves which creature ids exist. -/
theorem declareStepEffects (pid : Nat)
    (acc : CombatGameState × CombatEngineState × List Str)
    (pr : Nat × Defender)
    (h : (Combat.findC acc.1.creatures pr.1).isSome = true) :
    (Combat.declareStep pid acc pr).2.2.length = acc.2.2.length + 1 ∧
    ∀ j, (Combat.findC (Combat.declareStep pid acc pr).1.creatures j).isSome =
      (Combat.findC acc.1.creatures j).isSome := by
  obtain ⟨c, hc⟩ := Option.isSome_iff_exists.mp h
  obtain ⟨gs, eng, log⟩ := acc
  simp only at hc
  simp only [Combat.declareStep, hc]
  split_ifs <;>
    simp [List.length_append, findCUpdCIsSome]

/-- declareFoldLen: the declaration loop emits exactly one message per
declared pair when every declared creature exists. -/
theorem declareFoldLen (pid : Nat) (declared : List (Nat × Defender)) :
    ∀ acc : CombatGameState × CombatEngineState × List Str,
    (∀ pr ∈ declared, (Combat.findC acc.1.creatures pr.1).isSome = true) →
    (declared.foldl (Combat.declareStep pid) acc).2.2.length =
      acc.2.2.length + declared.length := by
  induction declared with
  | nil => intro acc _; simp
  | cons pr rest ih =>
    intro acc h
    rw [List.foldl_cons]
    have h0 := h pr (by simp)
    have hstep := declareStepEffects pid acc pr h0
    have hrest : ∀ q ∈ rest,
        (Combat.findC (Combat.declareStep pid acc pr).1.creatures q.1).isSome
          = true := by
      intro q hq
      rw [hstep.2 q.1]
      exact h q (by simp [hq])
    rw [ih _ hrest, hstep.1]
    simp only [List.length_cons]
    omega

/-- C8: `declare_attackers` is a partial-failure batch — during the declare
step, with every declared creature existing, it emits exactly one message
per declared pair (first conjunct); in the concrete scenario where only the
second of three declared creatures is tapped, the first and third are
recorded, tapped and marked attacking, the second is left untouched, and
exactly one skip message (the tapped message for the second) appears
between the two attack messages. -/
theorem C8_partial_batch :
    (∀ gs eng pid declared,
      gs.phase = chars "Declare Attackers" →
      (∀ pr ∈ declared, (Combat.findC gs.creatures pr.1).isSome = true) →
      (Combat.declare_attackers gs eng pid declared).2.2.length =
        declared.length) ∧
    (Combat.declare_attackers c8state {} 1 c8declared).2.2 =
      [chars "C1 attacks Bob.", chars "C2 is tapped and can\x27t attack.",
       chars "C3 attacks Bob."] ∧
    (Combat.declare_attackers c8state {} 1 c8declared).2.1.attackers =
      [(21, .player 0), (23, .player 0)] ∧
    (Combat.findC (Combat.declare_attackers c8state {} 1
        c8declared).1.creatures 21).map (fun c => (c.tapped, c.status)) =
      some (true, chars "attacking") ∧
    (Combat.findC (Combat.declare_attackers c8state {} 1
        c8declared).1.creatures 23).map (fun c => (c.tapped, c.status)) =
      some (true, chars "attacking") ∧
    (Combat.findC (Combat.declare_attackers c8state {} 1
        c8declared).1.creatures 22) =
      some { id := 22, name := chars "C2", controller := 1,
             tapped := true } := by
  refine ⟨?_, by decide, by decide, by decide, by decide, by decide⟩
  intro gs eng pid declared hphase h
  have hbne : (gs.phase != chars "Declare Attackers") = false := by
    simp [hphase]
  simp only [Combat.declare_attackers, hbne, Bool.false_eq_true, if_false]
  rcases hcmb : gs.combat with _ | cd
  · have := declareFoldLen pid declared
      ({ gs with combat := some {} }, eng, []) (by simpa using h)
    simpa using this
  · have := declareFoldLen pid declared (gs, eng, []) (by simpa using h)
    simpa using this

/-- C8 witness: the general one-message-per-entry law applied to the
concrete three-entry scenario. -/
theorem C8_witness :
    (Combat.declare_attackers c8state {} 1 c8declared).2.2.length =
      c8declared.length :=
  C8_partial_batch.1 c8state {} 1 c8declared rfl (by decide)

/-- findCUpdCMap: rewriting a creature with an update that preserves the id
and a projection also preserves that projection of every lookup. -/
theorem findCUpdCMap {α : Type} (cs : List Creature) (k j : Nat)
    (f : Creature → Creature) (g : Creature → α)
    (hf : ∀ c, (f c).id = c.id) (hfg : ∀ c, g (f c) = g c) :
    (Combat.findC (Combat.updC cs k f) j).map g =
      (Combat.findC cs j).map g := by
  induction cs with
  | nil => rfl
  | cons c rest ih =>
    have hid : ((if (c.id == k) = true then f c else c).id) = c.id := by
      split <;> simp [hf]
    have hg : g (if (c.id == k) = true then f c else c) = g c := by
      split <;> simp [hfg]
    by_cases hj : c.id = j
    · have h1 : ((if (c.id == k) = true then f c else c).id == j) = true := by
        rw [hid]
        exact beq_iff_eq.mpr hj
      have h2 : (c.id == j) = true := beq_iff_eq.mpr hj
      simp only [Combat.findC, Combat.updC, List.map_cons, List.find?, h1, h2]
      show some (g (if (c.id == k) = true then f c else c)) = some (g c)
      rw [hg]
    · have h1 : ((if (c.id == k) = true then f c else c).id == j) = false := by
        rw [hid]
        simp [hj]
      have h2 : (c.id == j) = false := by simp [hj]
      simp only [Combat.findC, Combat.updC, List.map_cons, List.find?, h1,
        h2] at ih ⊢
      exact ih

/-- distributeLoopTrample: the blocked-damage distribution loop only marks
damage, so the attacker's trample flag reads the same before and after. -/
theorem distributeLoopTrample (aid : Nat) (bs : List Nat) :
    ∀ (cs : List Creature) (rem : Int),
    (Combat.findC (Combat.distributeLoop aid cs rem bs).1 aid).map
        (fun c => c.trample) =
      (Combat.findC cs aid).map (fun c => c.trample) := by
  induction bs with
  | nil => intro cs rem; rfl
  | cons b rest ih =>
    intro cs rem
    rcases hfb : Combat.findC cs b with _ | bc
    · simp only [Combat.distributeLoop, hfb]
      exact ih cs rem
    · rcases hfa : Combat.findC cs aid with _ | ac
      · simp only [Combat.distributeLoop, hfb, hfa]
        exact (ih cs rem).trans (by rw [hfa])
      · simp only [Combat.distributeLoop, hfb, hfa]
        set d : Int := if ac.deathtouch = true then 1
          else min rem (bc.toughness - bc.damage) with hd
        set f1 : Creature → Creature :=
          fun c => { c with damage := c.damage + d } with hf1
        have hupd := findCUpdCMap cs b aid f1 (fun c => c.trample)
          (fun c => rfl) (fun c => rfl)
        by_cases hle : rem - d ≤ 0
        · rw [if_pos hle, hupd, hfa]
        · rw [if_neg hle]
          rcases hr : Combat.distributeLoop aid (Combat.updC cs b f1)
            (rem - d) rest with ⟨cs2, rem2, log2⟩
          have h2 := ih (Combat.updC cs b f1) (rem - d)
          rw [hr] at h2
          exact (h2.trans hupd).trans (by rw [hfa])

/-- C2: for a blocked attacker without trample the defending player's life
is never touched — leftover power is discarded (first conjunct, fully
general in the state, the blocker map and the defender); and the concrete
deathtouch scenario behaves exactly as specified: attacker power 4 with
deathtouch and no trample against B1 (toughness 3) then B2 (toughness 2)
marks 1 damage on each blocker, discards the remaining 2 power with the
defender's life unchanged, raises the attacker's marked damage by
B1.power + B2.power, and logs the four damage messages in order. -/
theorem C2_combat_damage :
    (∀ (bd : List (Nat × List Nat)) (gs : CombatGameState) (aid : Nat)
        (defender : Defender) (ac : Creature),
      Combat.findC gs.creatures aid = some ac →
      ac.trample = false →
      ((bd.filter (fun bv => bv.2.contains aid)).map (fun bv => bv.1)) ≠
        [] →
      (Combat.resolveAttacker bd gs aid defender).1.players = gs.players) ∧
    (Combat.findC (Combat.assign_damage c2state c2eng).1.creatures 11).map
      (fun c => c.damage) = some 1 ∧
    (Combat.findC (Combat.assign_damage c2state c2eng).1.creatures 12).map
      (fun c => c.damage) = some 1 ∧
    (Combat.findC (Combat.assign_damage c2state c2eng).1.creatures 10).map
      (fun c => c.damage) = some (c2b1.power + c2b2.power) ∧
    (Combat.findP (Combat.assign_damage c2state c2eng).1.players 0).map
      (fun p => p.life) = some 20 ∧
    (Combat.assign_damage c2state c2eng).2 =
      [chars "A deals 1 damage to B1.", chars "A deals 1 damage to B2.",
       chars "B1 deals 2 damage to A.", chars "B2 deals 1 damage to A."] := by
  refine ⟨?_, by decide, by decide, by decide, by decide, by decide⟩
  intro bd gs aid defender ac hfa htr hnb
  simp only [Combat.resolveAttacker, hfa]
  have hise : ((bd.filter (fun bv => bv.2.contains aid)).map
      (fun bv => bv.1)).isEmpty = false := by
    rcases hbl : (bd.filter (fun bv => bv.2.contains aid)).map
        (fun bv => bv.1) with _ | ⟨b0, bs⟩
    · exact absurd hbl hnb
    · rw [hbl]
      rfl
  simp only [hise, Bool.false_eq_true, if_false]
  rcases hr1 : Combat.distributeLoop aid gs.creatures ac.power
      ((bd.filter (fun bv => bv.2.contains aid)).map (fun bv => bv.1))
    with ⟨cs1, rem, log1⟩
  rw [hr1]
  have hmap := distributeLoopTrample aid
    ((bd.filter (fun bv => bv.2.contains aid)).map (fun bv => bv.1))
    gs.creatures ac.power
  rw [hr1, hfa] at hmap
  dsimp only at hmap
  have hmap2 : Option.map (fun c => c.trample) (Combat.findC cs1 aid) =
      some false := by
    rw [hmap]
    show some ac.trample = some false
    rw [htr]
  obtain ⟨a2, ha2, ha2t⟩ := Option.map_eq_some'.mp hmap2
  dsimp only
  simp only [ha2, ha2t, Bool.and_false, Bool.false_eq_true, if_false]

/-- C2 witness: the general no-trample law applied to the concrete
scenario — the defending player's life totals are untouched. -/
theorem C2_witness :
    (Combat.resolveAttacker c2eng.blockers c2state 10 (.player 0)).1.players
      = c2state.players :=
  C2_combat_damage.1 c2eng.blockers c2state 10 (.player 0) c2attacker
    (by decide) (by decide) (by decide)

/-- removeFirstCount: removing the first occurrence from a list holding at
most one occurrence leaves none. -/
theorem removeFirstCount (l : List Nat) (x : Nat) (h : l.count x ≤ 1) :
    (GameCore.removeFirst l x).count x = 0 := by
  induction l with
  | nil => rfl
  | cons y ys ih =>
    by_cases hyx : y = x
    · subst hyx
      simp only [GameCore.removeFirst, beq_self_eq_true, if_true]
      simp [List.count_cons] at h
      omega
    · have hb : (y == x) = false := by simp [hyx]
      have hb2 : (x == y) = false := by
        simp
        exact fun hh => hyx hh.symm
      simp only [GameCore.removeFirst, hb, Bool.false_eq_true, if_false]
      simp only [List.count_cons, hb, hb2, Bool.false_eq_true, if_false]
        at h ⊢
      have := ih (by omega)
      omega

/-- purgeOcc: purging a player that holds the card at most once per list
leaves no occurrence. -/
theorem purgeOcc (p : PlayerObj) (cid : Nat)
    (h : p.hand.count cid ≤ 1 ∧ p.library.count cid ≤ 1 ∧
      p.battlefield.count cid ≤ 1 ∧ p.graveyard.count cid ≤ 1 ∧
      p.exile.count cid ≤ 1) :
    GameCore.playerOcc (GameCore.purgePlayer p cid) cid = 0 := by
  obtain ⟨h1, h2, h3, h4, h5⟩ := h
  simp [GameCore.playerOcc, GameCore.purgePlayer, removeFirstCount _ _ h1,
    removeFirstCount _ _ h2, removeFirstCount _ _ h3,
    removeFirstCount _ _ h4, removeFirstCount _ _ h5]

/-- zoneSetId: writing a zone list never changes the player id. -/
theorem zoneSetId (p : PlayerObj) (z : Str) (l : List Nat) :
    (GameCore.zoneSet p z l).id = p.id := by
  simp only [GameCore.zoneSet]
  split_ifs <;> rfl

/-- zoneGetSet: reading back the zone just written returns the written
list, for each of the five legal zone names. -/
theorem zoneGetSet (p : PlayerObj) (z : Str) (l : List Nat)
    (hz : GameCore.zoneNames.contains z = true) :
    GameCore.zoneGet (GameCore.zoneSet p z l) z = l := by
  have hz5 : z = chars "hand" ∨ z = chars "library" ∨
      z = chars "battlefield" ∨ z = chars "graveyard" ∨
      z = chars "exile" := by
    simpa [GameCore.zoneNames] using hz
  rcases hz5 with h | h | h | h | h <;> subst h <;> rfl

/-- occAppendZone: appending the card once to a legal zone raises the
player occurrence count by exactly one. -/
theorem occAppendZone (p : PlayerObj) (z : Str) (cid : Nat)
    (hz : GameCore.zoneNames.contains z = true) :
    GameCore.playerOcc
      (GameCore.zoneSet p z (GameCore.zoneGet p z ++ [cid])) cid =
      GameCore.playerOcc p cid + 1 := by
  have hz5 : z = chars "hand" ∨ z = chars "library" ∨
      z = chars "battlefield" ∨ z = chars "graveyard" ∨
      z = chars "exile" := by
    simpa [GameCore.zoneNames] using hz
  rcases hz5 with h | h | h | h | h <;> subst h
  · show GameCore.playerOcc { p with hand := p.hand ++ [cid] } cid =
      GameCore.playerOcc p cid + 1
    simp [GameCore.playerOcc, List.count_append]
    omega
  · show GameCore.playerOcc { p with library := p.library ++ [cid] } cid =
      GameCore.playerOcc p cid + 1
    simp [GameCore.playerOcc, List.count_append]
    omega
  · show GameCore.playerOcc
        { p with battlefield := p.battlefield ++ [cid] } cid =
      GameCore.playerOcc p cid + 1
    simp [GameCore.playerOcc, List.count_append]
    omega
  · show GameCore.playerOcc { p with graveyard := p.graveyard ++ [cid] } cid =
      GameCore.playerOcc p cid + 1
    simp [GameCore.playerOcc, List.count_append]
    omega
  · show GameCore.playerOcc { p with exile := p.exile ++ [cid] } cid =
      GameCore.playerOcc p cid + 1
    simp [GameCore.playerOcc, List.count_append]
    omega

/-- findPlayerMap: looking a player up by id through a map whose function
preserves ids finds the image of the original player. -/
theorem findPlayerMap (ps : List PlayerObj) (pid : Nat)
    (g : PlayerObj → PlayerObj) (hg : ∀ p, (g p).id = p.id) :
    GameCore.findPlayer (ps.map g) pid =
      (GameCore.findPlayer ps pid).map g := by
  induction ps with
  | nil => rfl
  | cons p rest ih =>
    by_cases hp : p.id = pid
    · have h1 : ((g p).id == pid) = true := by
        rw [hg]
        exact beq_iff_eq.mpr hp
      have h2 : (p.id == pid) = true := beq_iff_eq.mpr hp
      simp only [GameCore.findPlayer, List.map_cons, List.find?, h1, h2]
      rfl
    · have h1 : ((g p).id == pid) = false := by
        rw [hg]
        simp [hp]
      have h2 : (p.id == pid) = false := by simp [hp]
      simp only [GameCore.findPlayer, List.map_cons, List.find?, h1, h2]
        at ih ⊢
      exact ih

/-- findCardUpd: rewriting a card by id makes the lookup of that id return
the rewritten card. -/
theorem findCardUpd (cs : List CardObj) (cid : Nat) (f : CardObj → CardObj)
    (hf : ∀ c, (f c).id = c.id) :
    GameCore.findCard (GameCore.updCard cs cid f) cid =
      (GameCore.findCard cs cid).map f := by
  induction cs with
  | nil => rfl
  | cons c rest ih =>
    by_cases hc : c.id = cid
    · have h2 : (c.id == cid) = true := beq_iff_eq.mpr hc
      have h3 : ((f c).id == cid) = true := by
        rw [hf]
        exact h2
      have hif : (if (c.id == cid) = true then f c else c) = f c := by
        rw [h2]
        simp
      calc GameCore.findCard (GameCore.updCard (c :: rest) cid f) cid
          = List.find? (fun x => x.id == cid)
              ((if (c.id == cid) = true then f c else c) ::
                GameCore.updCard rest cid f) := rfl
        _ = List.find? (fun x => x.id == cid)
              (f c :: GameCore.updCard rest cid f) := by rw [hif]
        _ = some (f c) := List.find?_cons_of_pos _ h3
        _ = Option.map f (some c) := rfl
        _ = Option.map f (GameCore.findCard (c :: rest) cid) := by
            rw [show GameCore.findCard (c :: rest) cid = some c from
              List.find?_cons_of_pos _ h2]
    · have h2 : (c.id == cid) = false := by simp [hc]
      simp only [GameCore.findCard, GameCore.updCard, List.map_cons,
        List.find?, h2, Bool.false_eq_true, if_false] at ih ⊢
      exact ih

/-- sumOccMove: after purging every player and appending the card once to
the target player's destination zone, the summed occurrence count equals
the number of players carrying the target id. -/
theorem sumOccMove (cid pid : Nat) (z : Str)
    (hz : GameCore.zoneNames.contains z = true) :
    ∀ ps : List PlayerObj,
    (∀ p ∈ ps, p.hand.count cid ≤ 1 ∧ p.library.count cid ≤ 1 ∧
      p.battlefield.count cid ≤ 1 ∧ p.graveyard.count cid ≤ 1 ∧
      p.exile.count cid ≤ 1) →
    (((ps.map (fun p => GameCore.purgePlayer p cid)).map (fun p =>
        if p.id == pid then
          GameCore.zoneSet p z (GameCore.zoneGet p z ++ [cid])
        else p)).map (fun p => GameCore.playerOcc p cid)).sum =
      ps.countP (fun p => p.id == pid) := by
  intro ps
  induction ps with
  | nil => intro _; rfl
  | cons p rest ih =>
    intro h
    have hp := purgeOcc p cid (h p (by simp))
    have hrest := ih (fun q hq => h q (by simp [hq]))
    simp only [List.map_cons, List.sum_cons, List.countP_cons]
    rw [hrest]
    by_cases hid : (GameCore.purgePlayer p cid).id == pid
    · have hid2 : (p.id == pid) = true := hid
      simp only [hid, if_true, hid2]
      rw [occAppendZone _ _ _ hz, hp]
      omega
    · have hid2 : (p.id == pid) = false := by
        simp only [Bool.not_eq_true] at hid
        exact hid
      simp only [Bool.not_eq_true] at hid
      simp only [hid, Bool.false_eq_true, if_false, hid2, hp]
      omega

/-- moveCardCore: the state produced by a successful `move_card` holds the
card exactly once across all zone lists — in the destination zone of the
target player — and the card's own attributes are updated. -/
theorem moveCardCore (s : GameSt) (cid pid : Nat) (z : Str) (fd : Bool)
    (hz : GameCore.zoneNames.contains z = true)
    (hcnt : ∀ p ∈ s.players, p.hand.count cid ≤ 1 ∧
      p.library.count cid ≤ 1 ∧ p.battlefield.count cid ≤ 1 ∧
      p.graveyard.count cid ≤ 1 ∧ p.exile.count cid ≤ 1)
    (hpid : s.players.countP (fun p => p.id == pid) ≤ 1)
    (hany : s.players.any (fun p => p.id == pid) = true)
    (hcard : (GameCore.findCard s.cards cid).isSome = true) :
    (((s.players.map (fun p => GameCore.purgePlayer p cid)).map (fun p =>
        if p.id == pid then
          GameCore.zoneSet p z (GameCore.zoneGet p z ++ [cid])
        else p)).map (fun p => GameCore.playerOcc p cid)).sum = 1 ∧
    (∃ p, GameCore.findPlayer
        ((s.players.map (fun p => GameCore.purgePlayer p cid)).map (fun p =>
          if p.id == pid then
            GameCore.zoneSet p z (GameCore.zoneGet p z ++ [cid])
          else p)) pid = some p ∧
      cid ∈ GameCore.zoneGet p z) ∧
    (GameCore.findCard (GameCore.updCard s.cards cid (fun c =>
        { c with zone := z, is_face_down := fd, controller := pid }))
      cid).map (fun c => c.zone) = some z ∧
    (GameCore.findCard (GameCore.updCard s.cards cid (fun c =>
        { c with zone := z, is_face_down := fd, controller := pid }))
      cid).map (fun c => c.controller) = some pid := by
  have hgid : ∀ p : PlayerObj,
      ((fun p => if p.id == pid then
        GameCore.zoneSet p z (GameCore.zoneGet p z ++ [cid]) else p) p).id =
      p.id := by
    intro p
    dsimp only
    split
    · exact zoneSetId _ _ _
    · rfl
  have hpurgeid : ∀ p : PlayerObj, (GameCore.purgePlayer p cid).id = p.id :=
    fun p => rfl
  have hfid : ∀ c : CardObj,
      ((fun (c : CardObj) =>
        { c with zone := z, is_face_down := fd, controller := pid })
        c).id = c.id := fun c => rfl
  obtain ⟨c0, hc0⟩ := Option.isSome_iff_exists.mp hcard
  refine ⟨?_, ?_, ?_, ?_⟩
  · rw [sumOccMove cid pid z hz s.players hcnt]
    have h1 : 0 < s.players.countP (fun p => p.id == pid) := by
      rw [List.countP_pos]
      obtain ⟨p0, hmem, hp⟩ := List.any_eq_true.mp hany
      exact ⟨p0, hmem, hp⟩
    omega
  · have hs : (GameCore.findPlayer s.players pid).isSome = true := by
      have : ∃ x ∈ s.players, (x.id == pid) = true := by
        simpa using List.any_eq_true.mp hany
      simpa [GameCore.findPlayer, List.find?_isSome] using this
    obtain ⟨q, hq⟩ := Option.isSome_iff_exists.mp hs
    have hqid0 := List.find?_some (show List.find?
      (fun p => p.id == pid) s.players = some q from hq)
    have hqid : (q.id == pid) = true := hqid0
    rw [findPlayerMap _ _ _ hgid, findPlayerMap _ _ _ hpurgeid, hq]
    refine ⟨GameCore.zoneSet (GameCore.purgePlayer q cid) z
      (GameCore.zoneGet (GameCore.purgePlayer q cid) z ++ [cid]), ?_, ?_⟩
    · show some (if ((GameCore.purgePlayer q cid).id == pid) = true then
          GameCore.zoneSet (GameCore.purgePlayer q cid) z
            (GameCore.zoneGet (GameCore.purgePlayer q cid) z ++ [cid])
        else GameCore.purgePlayer q cid) = _
      rw [show ((GameCore.purgePlayer q cid).id == pid) = true from hqid]
      simp
    · rw [zoneGetSet _ _ _ hz]
      simp
  · rw [findCardUpd _ _ _ hfid, hc0]
    rfl
  · rw [findCardUpd _ _ _ hfid, hc0]
    rfl

/-- C9: after every successful `move_card`, the card occurs exactly once
across all zone lists of all managed players — in the destination zone of
the target player — and the card's `zone` and `controller` attributes are
updated, provided the pre-state holds the card at most once per zone list,
the target player id is unambiguous, and the card exists. -/
theorem C9_move_card_single_zone (s : GameSt) (cid pid : Nat) (z : Str)
    (fd : Bool) (s' : GameSt) (msg : Str)
    (h : GameCore.move_card s cid pid z fd = .ok (s', msg))
    (hcnt : ∀ p ∈ s.players, p.hand.count cid ≤ 1 ∧
      p.library.count cid ≤ 1 ∧ p.battlefield.count cid ≤ 1 ∧
      p.graveyard.count cid ≤ 1 ∧ p.exile.count cid ≤ 1)
    (hpid : s.players.countP (fun p => p.id == pid) ≤ 1)
    (hcard : (GameCore.findCard s.cards cid).isSome = true) :
    GameCore.totalOcc s' cid = 1 ∧
    (∃ p, GameCore.findPlayer s'.players pid = some p ∧
      cid ∈ GameCore.zoneGet p z) ∧
    (GameCore.findCard s'.cards cid).map (fun c => c.zone) = some z ∧
    (GameCore.findCard s'.cards cid).map (fun c => c.controller) =
      some pid := by
  by_cases hA : s.players.any (fun p => p.id == pid) = true
  · by_cases hZ : GameCore.zoneNames.contains z = true
    · have hcore := moveCardCore s cid pid z fd hZ hcnt hpid hA hcard
      simp only [GameCore.move_card, hA, hZ, Bool.not_true,
        Bool.false_eq_true, if_false] at h
      rw [Except.ok.injEq, Prod.mk.injEq] at h
      obtain ⟨hstate, hmsg⟩ := h
      subst hstate
      refine ⟨?_, ?_, ?_, ?_⟩
      · show GameCore.totalOcc _ cid = 1
        split
        · exact hcore.1
        · exact hcore.1
      · split
        · exact hcore.2.1
        · exact hcore.2.1
      · split
        · exact hcore.2.2.1
        · exact hcore.2.2.1
      · split
        · exact hcore.2.2.2
        · exact hcore.2.2.2
    · have hmem : z ∉ GameCore.zoneNames := by simpa using hZ
      simp [GameCore.move_card, hA, hmem] at h
  · have haf : s.players.any (fun p => p.id == pid) = false := by
      rw [← Bool.not_eq_true]
      exact hA
    simp [GameCore.move_card, haf] at h

/-- C9 witness: moving the card from player 0's hand to player 1's
battlefield leaves exactly one occurrence, in the destination zone, with
the card attributes rewritten. -/
theorem C9_witness :
    GameCore.totalOcc c9after 100 = 1 ∧
    (∃ p, GameCore.findPlayer c9after.players 1 = some p ∧
      100 ∈ GameCore.zoneGet p (chars "battlefield")) ∧
    (GameCore.findCard c9after.cards 100).map (fun c => c.zone) =
      some (chars "battlefield") ∧
    (GameCore.findCard c9after.cards 100).map (fun c => c.controller) =
      some 1 :=
  C9_move_card_single_zone c9state 100 1 (chars "battlefield") false c9after
    (chars "Bear moves to battlefield.") rfl (by decide) (by decide)
    (by decide)

/-- C10: capability dispatch of the `deal_damage` action.  `None` targets
are skipped silently; a player target (which always has a `life`
attribute) loses life; a card target loses life when it exposes `life` —
even if it also exposes `damage` or `loyalty`, which stay untouched in the
rewritten card — gains marked damage when `life` is absent and `damage`
present, loses loyalty when only `loyalty` is present, and is skipped
silently (no state change, no log) when it exposes none of the three. -/
theorem C10_deal_damage_dispatch :
    (∀ (s : GameSt) (amount : Int),
      EffectEngine.dealDamageOne s amount none = (s, [])) ∧
    (∀ (s : GameSt) (amount : Int) (pid : Nat) (p : PlayerObj),
      GameCore.findPlayer s.players pid = some p →
      (EffectEngine.dealDamageOne s amount (some (.player pid))).1.players =
        GameCore.updPlayer s.players pid
          (fun q => { q with life := q.life - amount }) ∧
      (EffectEngine.dealDamageOne s amount (some (.player pid))).2 =
        [p.name ++ chars " takes " ++ intToStr amount ++
          chars " damage (life)."]) ∧
    (∀ (s : GameSt) (amount : Int) (cid : Nat) (c : CardObj),
      GameCore.findCard s.cards cid = some c →
      (c.life.isSome = true →
        GameCore.findCard (EffectEngine.dealDamageOne s amount
            (some (.card cid))).1.cards cid =
          some { c with life := c.life.map (fun l => l - amount) } ∧
        (EffectEngine.dealDamageOne s amount (some (.card cid))).2 =
          [c.name ++ chars " takes " ++ intToStr amount ++
            chars " damage (life)."]) ∧
      (c.life = none → c.damage.isSome = true →
        GameCore.findCard (EffectEngine.dealDamageOne s amount
            (some (.card cid))).1.cards cid =
          some { c with damage := c.damage.map (fun l => l + amount) } ∧
        (EffectEngine.dealDamageOne s amount (some (.card cid))).2 =
          [c.name ++ chars " takes " ++ intToStr amount ++
            chars " damage (marked)."]) ∧
      (c.life = none → c.damage = none → c.loyalty.isSome = true →
        GameCore.findCard (EffectEngine.dealDamageOne s amount
            (some (.card cid))).1.cards cid =
          some { c with loyalty := c.loyalty.map (fun l => l - amount) } ∧
        (EffectEngine.dealDamageOne s amount (some (.card cid))).2 =
          [c.name ++ chars " loses " ++ intToStr amount ++
            chars " loyalty."]) ∧
      (c.life = none → c.damage = none → c.loyalty = none →
        EffectEngine.dealDamageOne s amount (some (.card cid)) =
          (s, []))) := by
  refine ⟨fun s amount => rfl, ?_, ?_⟩
  · intro s amount pid p hp
    constructor <;> simp [EffectEngine.dealDamageOne, hp]
  · intro s amount cid c hf
    have hfuL := findCardUpd s.cards cid
      (fun d => { d with life := d.life.map (fun l => l - amount) })
      (fun d => rfl)
    have hfuD := findCardUpd s.cards cid
      (fun d => { d with damage := d.damage.map (fun l => l + amount) })
      (fun d => rfl)
    have hfuY := findCardUpd s.cards cid
      (fun d => { d with loyalty := d.loyalty.map (fun l => l - amount) })
      (fun d => rfl)
    refine ⟨?_, ?_, ?_, ?_⟩
    · intro hl
      constructor <;> simp [EffectEngine.dealDamageOne, hf, hl, hfuL]
    · intro hl hd
      constructor <;> simp [EffectEngine.dealDamageOne, hf, hl, hd, hfuD]
    · intro hl hd hy
      constructor <;>
        simp [EffectEngine.dealDamageOne, hf, hl, hd, hy, hfuY]
    · intro hl hd hy
      simp [EffectEngine.dealDamageOne, hf, hl, hd, hy]

/-- C10 witness: a target exposing both `life` and `damage` loses life
(the rewritten card keeps its `damage` field untouched), demonstrating the
dispatch precedence at a concrete input. -/
theorem C10_witness :
    GameCore.findCard (EffectEngine.dealDamageOne c10state 3
        (some (.card 7))).1.cards 7 =
      some { c10card with life := c10card.life.map (fun l => l - 3) } ∧
    (EffectEngine.dealDamageOne c10state 3 (some (.card 7))).2 =
      [c10card.name ++ chars " takes " ++ intToStr 3 ++
        chars " damage (life)."] :=
  (C10_deal_damage_dispatch.2.2 c10state 3 7 c10card rfl).1 rfl

/-- C1: resolving the top stack entry.  First conjunct: when the entry
declared targets and every one of them reports illegal, `resolve_top`
returns the fizzle result with the game state returned exactly as given —
the effect engine is never invoked (only the fizzle narrator event is
emitted).  Second conjunct: when at least one declared target is legal,
resolution is exactly the effect-engine run over a fresh context whose
target list is precisely the legal subset of the declared targets. -/
theorem C1_stack_fizzle_and_valid_subset :
    (∀ (st : List StackObject) (s : GameSt) (obj : StackObject),
      st.getLast? = some obj →
      obj.targets ≠ [] →
      (∀ t ∈ obj.targets, StackEngine.isTargetLegal s t = false) →
      StackEngine.resolve_top st s =
        .ok (st.dropLast, s, [.fizzled (StackEngine.display_name obj)],
          StackEngine.display_name obj ++
            chars " fizzles — all targets illegal.")) ∧
    (∀ (st : List StackObject) (s : GameSt) (obj : StackObject),
      st.getLast? = some obj →
      (∃ t ∈ obj.targets, StackEngine.isTargetLegal s t = true) →
      StackEngine.resolve_top st s =
        (match EffectEngine.execute obj.effect_ir
            { controller := obj.controller,
              targets := obj.targets.filter (StackEngine.isTargetLegal s) }
            (s, []) with
         | .ok r => .ok (st.dropLast, r.1,
             [.resolutionDone (StackEngine.display_name obj) r.2.2], r.2.2)
         | .error e => .error e)) := by
  constructor
  · intro st s obj htop hne hall
    have hisE : obj.targets.isEmpty = false := by
      rcases hts : obj.targets with _ | ⟨a, as⟩
      · exact absurd hts hne
      · rfl
    have hany : obj.targets.any (StackEngine.isTargetLegal s) = false := by
      rw [List.any_eq_false]
      intro t ht
      simp [hall t ht]
    have h1 : StackEngine.has_legal_targets obj s = false := by
      simp [StackEngine.has_legal_targets, hisE, hany]
    simp [StackEngine.resolve_top, htop, h1]
  · intro st s obj htop hex
    obtain ⟨t0, ht0, ht0l⟩ := hex
    have hany : obj.targets.any (StackEngine.isTargetLegal s) = true :=
      List.any_eq_true.mpr ⟨t0, ht0, ht0l⟩
    have h1 : StackEngine.has_legal_targets obj s = true := by
      simp [StackEngine.has_legal_targets, hany]
    have hmem : t0 ∈ obj.targets.filter (StackEngine.isTargetLegal s) :=
      List.mem_filter.mpr ⟨ht0, ht0l⟩
    have hlegE : (obj.targets.filter
        (StackEngine.isTargetLegal s)).isEmpty = false := by
      rcases hts : obj.targets.filter (StackEngine.isTargetLegal s)
        with _ | ⟨a, as⟩
      · rw [hts] at hmem
        exact absurd hmem (List.not_mem_nil t0)
      · rfl
    simp only [StackEngine.resolve_top, htop, h1, Bool.not_true,
      Bool.false_eq_true, if_false, StackEngine.controller_wants_to_resolve,
      Bool.and_false, StackEngine.objResolve, hlegE]
    cases hex2 : EffectEngine.execute obj.effect_ir
        { controller := obj.controller,
          targets := obj.targets.filter (StackEngine.isTargetLegal s) }
        (s, []) with
    | error e => simp [hex2, Bind.bind, Except.bind]
    | ok r => simp [hex2, Bind.bind, Except.bind]

/-- C1 witness: both laws applied at concrete inputs — an entry with all
targets invalid fizzles leaving the state exactly unchanged, and an entry
with one valid target resolves through the effect engine with exactly the
valid subset in its context. -/
theorem C1_witness :
    StackEngine.resolve_top [c1objAllBad] c1state =
      .ok ([], c1state,
        [.fizzled (StackEngine.display_name c1objAllBad)],
        StackEngine.display_name c1objAllBad ++
          chars " fizzles — all targets illegal.") ∧
    StackEngine.resolve_top [c1objSomeGood] c1state =
      (match EffectEngine.execute c1objSomeGood.effect_ir
          { controller := c1objSomeGood.controller,
            targets := c1objSomeGood.targets.filter
              (StackEngine.isTargetLegal c1state) }
          (c1state, []) with
       | .ok r => .ok ([], r.1,
           [.resolutionDone (StackEngine.display_name c1objSomeGood) r.2.2],
           r.2.2)
       | .error e => .error e) :=
  ⟨C1_stack_fizzle_and_valid_subset.1 [c1objAllBad] c1state c1objAllBad rfl
    (by decide) (by decide),
   C1_stack_fizzle_and_valid_subset.2 [c1objSomeGood] c1state c1objSomeGood
    rfl ⟨.card 201, by decide, by decide⟩⟩
